import Mathlib

/-!
Verification of the protocol engine of the `py_tuya_ble` library
(`src/py_tuya_ble/device.py` and `src/py_tuya_ble/const.py`).

Conventions of the shallow embedding:
* Python `bytes` / `bytearray` values are `List Nat`, one entry per byte.
* Python machine-width packing (`struct.pack`) is modelled with explicit
  `/ % 2^w` arithmetic; the bitwise operations `x & 0x7F`, `x >> 7`,
  `x & 0x80` of the source are written with their arithmetic equivalents
  `x % 128`, `x / 128`, `x / 128 % 2`, which agree with the bitwise
  versions on every natural number.
* Python floats (timestamps) are modelled as exact rationals `ℚ`.
* Exceptions are modelled with `Option`/`Except` result types; where a
  method mutates state before raising, the model returns the partially
  mutated state alongside the error.
* AES-CBC (from the external `Crypto.Cipher` package) is abstracted as a
  pair of functions `E D : key → iv → bytes → bytes`; theorems that need
  it take the inversion and length-preservation laws as hypotheses.
* `while` loops are written as fuel-based recursions; the fuel chosen is
  always an upper bound on the number of iterations the Python loop
  performs, so the embedding agrees with the source on every input on
  which the source terminates.
-/

namespace PyTuyaBLE

/-- Models `GATT_MTU` from `const.py`. -/
def GATT_MTU : Nat := 20

/-- Models `TuyaBLECode` from `const.py`: the protocol function codes. -/
inductive TuyaBLECode where
  | FUN_SENDER_DEVICE_INFO
  | FUN_SENDER_PAIR
  | FUN_SENDER_DPS
  | FUN_SENDER_DEVICE_STATUS
  | FUN_SENDER_UNBIND
  | FUN_SENDER_DEVICE_RESET
  | FUN_SENDER_OTA_START
  | FUN_SENDER_OTA_FILE
  | FUN_SENDER_OTA_OFFSET
  | FUN_SENDER_OTA_UPGRADE
  | FUN_SENDER_OTA_OVER
  | FUN_SENDER_DPS_V4
  | FUN_RECEIVE_DP
  | FUN_RECEIVE_TIME_DP
  | FUN_RECEIVE_SIGN_DP
  | FUN_RECEIVE_SIGN_TIME_DP
  | FUN_RECEIVE_DP_V4
  | FUN_RECEIVE_TIME_DP_V4
  | FUN_RECEIVE_TIME1_REQ
  | FUN_RECEIVE_TIME2_REQ
deriving DecidableEq

/-- Numeric value of each `TuyaBLECode` member, as in `const.py`. -/
def TuyaBLECode.value : TuyaBLECode → Nat
  | .FUN_SENDER_DEVICE_INFO => 0x0000
  | .FUN_SENDER_PAIR => 0x0001
  | .FUN_SENDER_DPS => 0x0002
  | .FUN_SENDER_DEVICE_STATUS => 0x0003
  | .FUN_SENDER_UNBIND => 0x0005
  | .FUN_SENDER_DEVICE_RESET => 0x0006
  | .FUN_SENDER_OTA_START => 0x000C
  | .FUN_SENDER_OTA_FILE => 0x000D
  | .FUN_SENDER_OTA_OFFSET => 0x000E
  | .FUN_SENDER_OTA_UPGRADE => 0x000F
  | .FUN_SENDER_OTA_OVER => 0x0010
  | .FUN_SENDER_DPS_V4 => 0x0027
  | .FUN_RECEIVE_DP => 0x8001
  | .FUN_RECEIVE_TIME_DP => 0x8003
  | .FUN_RECEIVE_SIGN_DP => 0x8004
  | .FUN_RECEIVE_SIGN_TIME_DP => 0x8005
  | .FUN_RECEIVE_DP_V4 => 0x8006
  | .FUN_RECEIVE_TIME_DP_V4 => 0x8007
  | .FUN_RECEIVE_TIME1_REQ => 0x8011
  | .FUN_RECEIVE_TIME2_REQ => 0x8012

/-- Models `TuyaBLECode(_code)` of `_parse_input`: look a numeric code up in the
enum, `none` when the value is not a member (the Python constructor
raises `ValueError`). -/
def TuyaBLECode.fromValue (n : Nat) : Option TuyaBLECode :=
  if n = 0x0000 then some .FUN_SENDER_DEVICE_INFO
  else if n = 0x0001 then some .FUN_SENDER_PAIR
  else if n = 0x0002 then some .FUN_SENDER_DPS
  else if n = 0x0003 then some .FUN_SENDER_DEVICE_STATUS
  else if n = 0x0005 then some .FUN_SENDER_UNBIND
  else if n = 0x0006 then some .FUN_SENDER_DEVICE_RESET
  else if n = 0x000C then some .FUN_SENDER_OTA_START
  else if n = 0x000D then some .FUN_SENDER_OTA_FILE
  else if n = 0x000E then some .FUN_SENDER_OTA_OFFSET
  else if n = 0x000F then some .FUN_SENDER_OTA_UPGRADE
  else if n = 0x0010 then some .FUN_SENDER_OTA_OVER
  else if n = 0x0027 then some .FUN_SENDER_DPS_V4
  else if n = 0x8001 then some .FUN_RECEIVE_DP
  else if n = 0x8003 then some .FUN_RECEIVE_TIME_DP
  else if n = 0x8004 then some .FUN_RECEIVE_SIGN_DP
  else if n = 0x8005 then some .FUN_RECEIVE_SIGN_TIME_DP
  else if n = 0x8006 then some .FUN_RECEIVE_DP_V4
  else if n = 0x8007 then some .FUN_RECEIVE_TIME_DP_V4
  else if n = 0x8011 then some .FUN_RECEIVE_TIME1_REQ
  else if n = 0x8012 then some .FUN_RECEIVE_TIME2_REQ
  else none

/-- Models `TuyaBLEDataPointType` from `const.py`. -/
inductive TuyaBLEDataPointType where
  | DT_RAW
  | DT_BOOL
  | DT_VALUE
  | DT_STRING
  | DT_ENUM
  | DT_BITMAP
deriving DecidableEq

/-- Numeric value of each datapoint type. -/
def TuyaBLEDataPointType.toValue : TuyaBLEDataPointType → Nat
  | .DT_RAW => 0
  | .DT_BOOL => 1
  | .DT_VALUE => 2
  | .DT_STRING => 3
  | .DT_ENUM => 4
  | .DT_BITMAP => 5

/-- Models `TuyaBLEDataPointType(_type)` for `_type ≤ 5` (the source checks
`_type > TuyaBLEDataPointType.DT_BITMAP.value` before converting). -/
def TuyaBLEDataPointType.ofValue (n : Nat) : TuyaBLEDataPointType :=
  if n = 0 then .DT_RAW
  else if n = 1 then .DT_BOOL
  else if n = 2 then .DT_VALUE
  else if n = 3 then .DT_STRING
  else if n = 4 then .DT_ENUM
  else .DT_BITMAP

/-- Models `pack(">I", n)`: big-endian unsigned 32-bit (requires `n < 2^32`). -/
def pack32 (n : Nat) : List Nat :=
  [n / 2 ^ 24 % 256, n / 2 ^ 16 % 256, n / 2 ^ 8 % 256, n % 256]

/-- Models `pack(">H", n)`: big-endian unsigned 16-bit (requires `n < 2^16`). -/
def pack16 (n : Nat) : List Nat :=
  [n / 2 ^ 8 % 256, n % 256]

/-- Models `pack(">h", z)`: big-endian signed 16-bit, two's complement
(requires `-2^15 ≤ z < 2^15`). -/
def packI16 (z : Int) : List Nat :=
  pack16 (z % 65536).toNat

/-- Models `unpack(">I", …)` on the first four bytes (0 on a short list; all
uses in this development are guarded by length checks). -/
def readU32 : List Nat → Nat
  | b0 :: b1 :: b2 :: b3 :: _ => ((b0 * 256 + b1) * 256 + b2) * 256 + b3
  | _ => 0

/-- Models `unpack(">H", …)` / `int.from_bytes(· , "big")` on the first two
bytes. -/
def readU16 : List Nat → Nat
  | b0 :: b1 :: _ => b0 * 256 + b1
  | _ => 0

/-- Models `int.from_bytes(bytes, "big")` over a whole buffer. -/
def beNat (l : List Nat) : Nat :=
  l.foldl (fun acc b => acc * 256 + b) 0

/-- Models `int.from_bytes(bytes, "big", signed=True)`. -/
def beSigned (l : List Nat) : Int :=
  let u := beNat l
  if l ≠ [] ∧ 2 ^ (8 * l.length - 1) ≤ u then (u : Int) - 2 ^ (8 * l.length) else (u : Int)

/-- Models `str(n).encode()` for a natural number: its decimal digits as ASCII
bytes. -/
def asciiDecimal (n : Nat) : List Nat :=
  (Nat.toDigits 10 n).map Char.toNat

/-- The inner 8-round loop of `_calc_crc16`: `tmp = crc & 1;
crc >>= 1; if tmp != 0: crc ^= 0xA001`. -/
def crcRounds : Nat → Nat → Nat
  | 0, crc => crc
  | r + 1, crc => crcRounds r (if crc % 2 ≠ 0 then crc / 2 ^^^ 0xA001 else crc / 2)

/-- Models `TuyaBLEDevice._calc_crc16`: CRC-16/MODBUS, poly `0xA001`,
init `0xFFFF`. -/
def calc_crc16 (data : List Nat) : Nat :=
  data.foldl (fun crc byte => crcRounds 8 (crc ^^^ byte % 256)) 0xFFFF

/-- The do-while loop of `_pack_int`, with explicit fuel (the loop runs
at most `value + 1` times, once per base-128 digit).
`value & 0x7F = value % 128`, `value >> 7 = value / 128`, and
`curr_byte |= 0x80 = curr_byte + 128` since `curr_byte < 128`. -/
def packGo : Nat → Nat → List Nat
  | 0, _ => []
  | fuel + 1, value =>
    let curr_byte := value % 128
    let value2 := value / 128
    if value2 = 0 then [curr_byte] else (curr_byte + 128) :: packGo fuel value2

/-- Models `TuyaBLEDevice._pack_int`: variable-length 7-bit little-endian
encoding. -/
def pack_int (value : Nat) : List Nat :=
  packGo (value + 1) value

/-- The while loop of `_unpack_int`; `remaining = 5 - offset` counts the
iterations still allowed by `while offset < 5`.  `curr_byte & 0x7F` is
`b % 128` and `(curr_byte & 0x80) == 0` is `b / 128 % 2 = 0`; since the
7-bit chunks accumulated into `result` occupy disjoint bit ranges,
`result |= chunk << (offset * 7)` is `result + chunk * 2 ^ (7 * offset)`.
`none` models `TuyaBLEDataFormatError` (missing byte, or more than four
bytes consumed). -/
def unpackGo (data : List Nat) (start_pos : Nat) : Nat → Nat → Nat → Option (Nat × Nat)
  | 0, offset, result =>
    if offset > 4 then none else some (result, start_pos + offset)
  | remaining + 1, offset, result =>
    match data.get? (start_pos + offset) with
    | none => none
    | some b =>
      let result2 := result + b % 128 * 2 ^ (7 * offset)
      if b / 128 % 2 = 0 then
        if offset + 1 > 4 then none else some (result2, start_pos + offset + 1)
      else unpackGo data start_pos remaining (offset + 1) result2

/-- Models `TuyaBLEDevice._unpack_int`. -/
def unpack_int (data : List Nat) (start_pos : Nat) : Option (Nat × Nat) :=
  unpackGo data start_pos 5 0 0

/-- Models `TuyaBLEDevice._get_key`: select the decryption key from the
security flag (`1` auth, `4` login, `5` session); `none` for any other
flag (the source returns `None`, and `AES.new(None, …)` then raises). -/
def get_key (auth_key login_key session_key : Option (List Nat)) (security_flag : Nat) :
    Option (List Nat) :=
  if security_flag = 1 then auth_key
  else if security_flag = 4 then login_key
  else if security_flag = 5 then session_key
  else none

/-- A decoded protocol message, as handed from `_parse_input` to
`_handle_command_or_response`. -/
structure ParsedMsg where
  seq_num : Nat
  response_to : Nat
  code : TuyaBLECode
  data : List Nat
deriving DecidableEq

/-- Lines 641–654 of `_build_packets`: build the plaintext
`header ‖ body ‖ crc`, zero-pad it to a 16-byte boundary, AES-CBC
encrypt it and prefix the security flag and IV.  The key is the login
key with flag `0x04` for `FUN_SENDER_DEVICE_INFO`, else the session key
with flag `0x05`; `none` models the crash when the needed key is `None`.
`E : key → iv → plaintext → ciphertext` abstracts
`AES.new(key, AES.MODE_CBC, iv).encrypt`.

First, lines 641–650: the padded plaintext
`header ‖ body ‖ crc ‖ zero-padding`. -/
def plaintext_packet (seq_num response_to : Nat) (code : TuyaBLECode) (data : List Nat) :
    List Nat :=
  let raw := pack32 seq_num ++ pack32 response_to ++ pack16 code.value ++
    pack16 data.length ++ data
  let raw2 := raw ++ pack16 (calc_crc16 raw)
  raw2 ++ List.replicate ((16 - raw2.length % 16) % 16) 0

/-- Lines 632–654 of `_build_packets`: select the key and security flag,
encrypt the padded plaintext, and prefix the flag byte and IV. -/
def build_encrypted (E : List Nat → List Nat → List Nat → List Nat)
    (login_key session_key : Option (List Nat)) (seq_num : Nat) (code : TuyaBLECode)
    (data : List Nat) (response_to : Nat) (iv : List Nat) : Option (List Nat) :=
  let key_flag : Option (List Nat) × Nat :=
    if code = TuyaBLECode.FUN_SENDER_DEVICE_INFO then (login_key, 4) else (session_key, 5)
  match key_flag.1 with
  | none => none
  | some key =>
    some (key_flag.2 :: iv ++ E key iv (plaintext_packet seq_num response_to code data))

/-- Lines 656–677 of `_build_packets`: split an encrypted buffer into
MTU-sized fragments.  Each iteration consumes at least one byte of the
buffer (the header is at most 7 bytes for the packet numbers and lengths
reachable here), so `encrypted.length` iterations of fuel cover every
terminating execution of the Python loop. -/
def fragGo (encrypted : List Nat) (version : Nat) : Nat → Nat → Nat → List (List Nat)
  | 0, _, _ => []
  | fuel + 1, pos, packet_num =>
    if pos < encrypted.length then
      let packet := pack_int packet_num ++
        (if packet_num = 0 then pack_int encrypted.length ++ [version * 16] else [])
      let data_part := (encrypted.drop pos).take (GATT_MTU - packet.length)
      (packet ++ data_part) ::
        fragGo encrypted version fuel (pos + data_part.length) (packet_num + 1)
    else []

/-- The fragmentation half of `_build_packets` (the trailing while loop):
`version * 16` is `protocol_version << 4`, a byte for `version < 16`. -/
def build_fragments (encrypted : List Nat) (version : Nat) : List (List Nat) :=
  fragGo encrypted version encrypted.length 0 0

/-- Models `TuyaBLEDevice._build_packets` in full: encrypt, then fragment. -/
def build_packets (E : List Nat → List Nat → List Nat → List Nat)
    (login_key session_key : Option (List Nat)) (version seq_num : Nat)
    (code : TuyaBLECode) (data : List Nat) (response_to : Nat) (iv : List Nat) :
    Option (List (List Nat)) :=
  (build_encrypted E login_key session_key seq_num code data response_to iv).map
    (fun encrypted => build_fragments encrypted version)

/-- Models `TuyaBLEDevice._parse_input` up to the call of
`_handle_command_or_response`: read the security flag, select the key,
decrypt, parse the header, check lengths and CRC, and look the opcode
up.  `none` models every raise/drop path: empty buffer, unknown security
flag, short header, `TuyaBLEDataLengthError`, `TuyaBLEDataCRCError`, and
the logged-and-dropped unknown opcode.
`D` abstracts `AES.new(key, AES.MODE_CBC, iv).decrypt`. -/
def parse_input (D : List Nat → List Nat → List Nat → List Nat)
    (auth_key login_key session_key : Option (List Nat)) (input_buffer : List Nat) :
    Option ParsedMsg :=
  match input_buffer.get? 0 with
  | none => none
  | some security_flag =>
    match get_key auth_key login_key session_key security_flag with
    | none => none
    | some key =>
      let iv := (input_buffer.drop 1).take 16
      let encrypted := input_buffer.drop 17
      let raw := D key iv encrypted
      if raw.length < 12 then none
      else
        let seq_num := readU32 raw
        let response_to := readU32 (raw.drop 4)
        let code_val := readU16 (raw.drop 8)
        let length := readU16 (raw.drop 10)
        let data_end_pos := length + 12
        if raw.length < data_end_pos then none
        else
          let data := (raw.drop 12).take length
          let result : Option ParsedMsg :=
            match TuyaBLECode.fromValue code_val with
            | none => none
            | some code => some ⟨seq_num, response_to, code, data⟩
          if raw.length > data_end_pos then
            if raw.length < data_end_pos + 2 then none
            else if calc_crc16 (raw.take data_end_pos) ≠ readU16 (raw.drop data_end_pos)
            then none
            else result
          else result

/-- The input-reassembly fields of `TuyaBLEDevice`:
`_input_buffer`, `_input_expected_packet_num`,
`_input_expected_length`. -/
structure RxState where
  input_buffer : Option (List Nat)
  input_expected_packet_num : Nat
  input_expected_length : Nat
deriving DecidableEq

/-- Models `TuyaBLEDevice._clean_input`, which is also the state set up by
`__init__`. -/
def clean_state : RxState :=
  ⟨none, 0, 0⟩

/-- Models `TuyaBLEDevice._notification_handler` as a step of the reassembly
state machine.  The second component is the completed encrypted buffer
handed to `_parse_input`, when this notification completes one
(`_parse_input` itself starts by calling `_clean_input`, which is why
the state returned with a completed message is `clean_state`).
Mutations performed before an exception are kept: when
`_unpack_int(data, pos)` raises inside the first-fragment branch the
buffer has already been reset to the empty bytearray. -/
def notification_step (s : RxState) (data : List Nat) : RxState × Option (List Nat) :=
  match unpack_int data 0 with
  | none => (s, none)
  | some (packet_num, pos0) =>
    let s1 := if packet_num < s.input_expected_packet_num then clean_state else s
    if packet_num = s1.input_expected_packet_num then
      let headerRead : Except RxState (RxState × Nat) :=
        if packet_num = 0 then
          match unpack_int data pos0 with
          | none => Except.error { s1 with input_buffer := some [] }
          | some (len, pos1) =>
            Except.ok ({ s1 with input_buffer := some [], input_expected_length := len },
              pos1 + 1)
        else Except.ok (s1, pos0)
      match headerRead with
      | Except.error sErr => (sErr, none)
      | Except.ok (s2, pos) =>
        match s2.input_buffer with
        | none => (s2, none)
        | some buf =>
          let buf2 := buf ++ data.drop pos
          let s3 : RxState :=
            { s2 with
              input_buffer := some buf2
              input_expected_packet_num := s2.input_expected_packet_num + 1 }
          if buf2.length > s3.input_expected_length then (clean_state, none)
          else if buf2.length = s3.input_expected_length then (clean_state, some buf2)
          else (s3, none)
    else (clean_state, none)

/-- Feed a sequence of notifications to the reassembler, collecting the
completed encrypted buffers in order. -/
def notification_feed (s : RxState) : List (List Nat) → RxState × List (List Nat)
  | [] => (s, [])
  | d :: rest =>
    let step := notification_step s d
    let next := notification_feed step.1 rest
    (next.1, match step.2 with | none => next.2 | some msg => msg :: next.2)

/-- The union `bytes | bool | int | str` of datapoint values
(`Union[bytes, bool, int, str]` in the source, plus Python's `None`,
which `get_or_create` stores when no initial value is given).
Python `str` values are modelled as their UTF-8 bytes. -/
inductive DpValue where
  | pynone
  | raw (b : List Nat)
  | boolean (v : Bool)
  | intval (v : Int)
  | strval (s : List Nat)
deriving DecidableEq

/-- Python `==` on the value union: `True == 1` and `False == 0` hold
across `bool`/`int`; all other cross-type comparisons are unequal. -/
def pyEq : DpValue → DpValue → Bool
  | .pynone, .pynone => true
  | .raw a, .raw b => a == b
  | .boolean a, .boolean b => a == b
  | .intval a, .intval b => a == b
  | .strval a, .strval b => a == b
  | .boolean a, .intval b => (if a then (1 : Int) else 0) == b
  | .intval a, .boolean b => a == (if b then (1 : Int) else 0)
  | _, _ => false

/-- Models `bytes(value)`: identity on bytes, `bytes(n)` is `n` zero bytes for
a non-negative int (and `bool` is an int in Python), raises on a
negative count, on `str` (needs an encoding) and on `None`. -/
def py_bytes : DpValue → Option (List Nat)
  | .raw b => some b
  | .boolean b => some (List.replicate (if b then 1 else 0) 0)
  | .intval n => if n < 0 then none else some (List.replicate n.toNat 0)
  | .strval _ => none
  | .pynone => none

/-- Models `bool(value)`: Python truthiness. -/
def py_bool : DpValue → Bool
  | .pynone => false
  | .raw b => !b.isEmpty
  | .boolean b => b
  | .intval n => n != 0
  | .strval s => !s.isEmpty

/-- Decimal digit parse used to model `int(str)`. -/
def decDigits : List Nat → Option Nat
  | [] => none
  | [d] => if 48 ≤ d ∧ d ≤ 57 then some (d - 48) else none
  | d :: rest => (decDigits rest).bind fun r =>
      if 48 ≤ d ∧ d ≤ 57 then some ((d - 48) * 10 ^ rest.length + r) else none

/-- Models `int(value)`: identity on int, `0`/`1` on bool, decimal parse on a
(plain, unsigned or `-`-signed) numeric string, raises otherwise.
(The full `int()` grammar — whitespace, `+`, underscores — is wider;
no theorem below depends on the string case.) -/
def py_int : DpValue → Option Int
  | .intval n => some n
  | .boolean b => some (if b then 1 else 0)
  | .strval (45 :: rest) => (decDigits rest).map fun n => -(n : Int)
  | .strval s => (decDigits s).map fun n => (n : Int)
  | .raw _ => none
  | .pynone => none

/-- Models `str(value)` as used by `set_value` on a `DT_STRING` datapoint:
identity on strings.  On other operands Python would produce a `repr`
string (for example `str(b"x") = "b'x'"`); those conversions are
modelled as failures and no theorem depends on them. -/
def py_str : DpValue → Option (List Nat)
  | .strval s => some s
  | _ => none

/-- The per-datapoint fields of `TuyaBLEDataPoint` (the `_owner` back
reference is represented by operating on the owning collection where the
source does). -/
structure DataPoint where
  id : Nat
  timestamp : ℚ
  flags : Nat
  type : TuyaBLEDataPointType
  value : DpValue
  changed_by_device : Bool
deriving DecidableEq

/-- Models `TuyaBLEDataPoint._update_from_device`. -/
def update_from_device (dp : DataPoint) (timestamp : ℚ) (flags : Nat)
    (type : TuyaBLEDataPointType) (value : DpValue) : DataPoint :=
  { dp with
    timestamp := timestamp
    flags := flags
    type := type
    changed_by_device := !pyEq dp.value value
    value := value }

/-- Models `TuyaBLEDataPoint.__init__`: store the value, then run
`_update_from_device` (which leaves `changed_by_device = False` since
the value equals itself). -/
def mkDataPoint (id : Nat) (timestamp : ℚ) (flags : Nat) (type : TuyaBLEDataPointType)
    (value : DpValue) : DataPoint :=
  update_from_device
    { id := id, timestamp := 0, flags := 0, type := type, value := value,
      changed_by_device := false }
    timestamp flags type value

/-- Models `TuyaBLEDataPoint.set_value` without the trailing
`_update_from_user` call (which belongs to the collection and is
modelled separately): coerce the value to the datapoint's declared type
and clear `changed_by_device`.  `none` models the raised exceptions,
including `TuyaBLEEnumValueError` for a negative `DT_ENUM` value. -/
def set_value (dp : DataPoint) (value : DpValue) : Option DataPoint :=
  match dp.type with
  | .DT_RAW | .DT_BITMAP =>
    (py_bytes value).map fun b =>
      { dp with value := .raw b, changed_by_device := false }
  | .DT_BOOL =>
    some { dp with value := .boolean (py_bool value), changed_by_device := false }
  | .DT_VALUE =>
    (py_int value).map fun n =>
      { dp with value := .intval n, changed_by_device := false }
  | .DT_ENUM =>
    (py_int value).bind fun n =>
      if 0 ≤ n then some { dp with value := .intval n, changed_by_device := false }
      else none
  | .DT_STRING =>
    (py_str value).map fun s =>
      { dp with value := .strval s, changed_by_device := false }

/-- The fields of `TuyaBLEDataPoints`: the id-keyed mapping (an
association list with unique ids), the batch counter and the dirty-id
list.  The counter is an `Int` exactly because the claim under test is
that it never becomes negative. -/
structure TuyaBLEDataPoints where
  datapoints : List (Nat × DataPoint)
  update_started : Int
  updated_datapoints : List Nat
deriving DecidableEq

/-- The empty collection created by `TuyaBLEDevice.__init__`. -/
def emptyDataPoints : TuyaBLEDataPoints :=
  ⟨[], 0, []⟩

/-- Models `self._datapoints.get(id)` / `__getitem__`. -/
def dps_get (c : TuyaBLEDataPoints) (id : Nat) : Option DataPoint :=
  (c.datapoints.find? (fun p => p.1 == id)).map (·.2)

/-- Models `TuyaBLEDataPoints.has_id`. -/
def has_id (c : TuyaBLEDataPoints) (id : Nat) (type : Option TuyaBLEDataPointType) : Bool :=
  match dps_get c id with
  | none => false
  | some dp => match type with
    | none => true
    | some t => dp.type == t

/-- Models `TuyaBLEDataPoints.get_or_create` (`now` stands for the
`time.time()` call). -/
def get_or_create (c : TuyaBLEDataPoints) (id : Nat) (type : TuyaBLEDataPointType)
    (value : DpValue) (now : ℚ) : TuyaBLEDataPoints × DataPoint :=
  match dps_get c id with
  | some dp => (c, dp)
  | none =>
    let dp := mkDataPoint id now 0 type value
    ({ c with datapoints := c.datapoints ++ [(id, dp)] }, dp)

/-- Models `TuyaBLEDataPoints.begin_update`. -/
def begin_update (c : TuyaBLEDataPoints) : TuyaBLEDataPoints :=
  { c with update_started := c.update_started + 1 }

/-- Models `TuyaBLEDataPoints.end_update`.  The second component is the list of
datapoint ids passed to `_send_datapoints`, when a send happens. -/
def end_update (c : TuyaBLEDataPoints) : TuyaBLEDataPoints × Option (List Nat) :=
  if 0 < c.update_started then
    let c2 := { c with update_started := c.update_started - 1 }
    if c2.update_started = 0 ∧ 0 < c2.updated_datapoints.length then
      ({ c2 with updated_datapoints := [] }, some c2.updated_datapoints)
    else (c2, none)
  else (c, none)

/-- Models `TuyaBLEDataPoints._update_from_device`: update an existing entry in
place or append a new one. -/
def dps_update_from_device (c : TuyaBLEDataPoints) (dp_id : Nat) (timestamp : ℚ)
    (flags : Nat) (type : TuyaBLEDataPointType) (value : DpValue) : TuyaBLEDataPoints :=
  match dps_get c dp_id with
  | some _ =>
    { c with datapoints := c.datapoints.map fun p =>
        if p.1 == dp_id then (p.1, update_from_device p.2 timestamp flags type value)
        else p }
  | none =>
    { c with datapoints :=
        c.datapoints ++ [(dp_id, mkDataPoint dp_id timestamp flags type value)] }

/-- Models `TuyaBLEDataPoints._update_from_user`: inside a batch, move the id
to the tail of the dirty list; outside a batch, request an immediate
send of that single id (the second component). -/
def update_from_user (c : TuyaBLEDataPoints) (dp_id : Nat) :
    TuyaBLEDataPoints × Option (List Nat) :=
  if 0 < c.update_started then
    ({ c with updated_datapoints := c.updated_datapoints.erase dp_id ++ [dp_id] }, none)
  else (c, some [dp_id])

/-- The exceptions of `exceptions.py` raised by the dispatcher, plus the
errors Python itself raises (`struct.error` for an out-of-range pack,
`IndexError`, `ValueError` from `int(str)`). -/
inductive PyErr where
  | dataLengthError
  | dataFormatError
  | dataCRCError
  | enumValueError
  | structError
  | indexError
  | valueError
deriving DecidableEq

/-- Models `TuyaBLEDevice._parse_timestamp`: a tag byte selects 13 ASCII
decimal characters of milliseconds (divided by 1000) or 4 big-endian
bytes of seconds.  Timestamps are exact rationals in this model. -/
def parse_timestamp (data : List Nat) (start_pos : Nat) : Except PyErr (ℚ × Nat) :=
  if data.length ≤ start_pos then Except.error .dataLengthError
  else
    let time_type := data.getD start_pos 0
    let pos := start_pos + 1
    if time_type = 0 then
      if data.length < pos + 13 then Except.error .dataLengthError
      else
        match decDigits ((data.drop pos).take 13) with
        | none => Except.error .valueError
        | some ms => Except.ok ((ms : ℚ) / 1000, pos + 13)
    else if time_type = 1 then
      if data.length < pos + 4 then Except.error .dataLengthError
      else Except.ok ((beNat ((data.drop pos).take 4) : ℚ), pos + 4)
    else Except.error .dataFormatError

/-- The while loop of `_parse_datapoints_v3`: consume `(id, type, len,
value)` tuples, updating the collection entry by entry.  On an error the
partially updated collection is returned with an empty callback list
(`_fire_callbacks` is only reached on success).  Each iteration advances
`pos` by at least 3, so `data.length + 1` fuel covers every execution. -/
def parseDpGo (timestamp : ℚ) (flags : Nat) (data : List Nat) :
    Nat → TuyaBLEDataPoints → List DataPoint → Nat →
    TuyaBLEDataPoints × List DataPoint × Option PyErr
  | 0, c, acc, _ => (c, acc, none)
  | fuel + 1, c, acc, pos =>
    if 4 ≤ data.length - pos then
      let id := data.getD pos 0
      let type_val := data.getD (pos + 1) 0
      if 5 < type_val then (c, [], some .dataFormatError)
      else
        let type := TuyaBLEDataPointType.ofValue type_val
        let data_len := data.getD (pos + 2) 0
        let next_pos := pos + 3 + data_len
        if data.length < next_pos then (c, [], some .dataLengthError)
        else
          let raw_value := (data.drop (pos + 3)).take data_len
          let value : DpValue :=
            match type with
            | .DT_RAW | .DT_BITMAP => .raw raw_value
            | .DT_BOOL => .boolean (beNat raw_value != 0)
            | .DT_VALUE | .DT_ENUM => .intval (beSigned raw_value)
            | .DT_STRING => .strval raw_value
          let c2 := dps_update_from_device c id timestamp flags type value
          let acc2 := acc ++ (match dps_get c2 id with | some dp => [dp] | none => [])
          parseDpGo timestamp flags data fuel c2 acc2 next_pos
    else (c, acc, none)

/-- Models `TuyaBLEDevice._parse_datapoints_v3` (the collection it operates on
made explicit).  Returns the updated collection, the list of updated
datapoints passed to `_fire_callbacks`, and the raised error if any. -/
def parse_datapoints_v3 (c : TuyaBLEDataPoints) (timestamp : ℚ) (flags : Nat)
    (data : List Nat) (start_pos : Nat) :
    TuyaBLEDataPoints × List DataPoint × Option PyErr :=
  parseDpGo timestamp flags data (data.length + 1) c [] start_pos

/-- The ambient values the dispatcher reads from the clock and from the
`hashlib` library: `time.time()` (seconds, as an exact rational),
`int(time.time_ns() / 1000000)` (milliseconds), `time.timezone`
(seconds west of UTC), the `time.localtime()` fields, and `md5`. -/
structure TimeEnv where
  now_sec : ℚ
  now_ms : Nat
  timezone : Int
  tm_year : Nat
  tm_mon : Nat
  tm_mday : Nat
  tm_hour : Nat
  tm_min : Nat
  tm_sec : Nat
  tm_wday : Nat
  md5 : List Nat → List Nat

/-- The `TuyaBLEDevice` fields read and written by
`_handle_command_or_response`. -/
structure HandlerState where
  device_version : Nat × Nat
  protocol_version_str : Nat × Nat
  hardware_version : Nat × Nat
  protocol_version : Nat
  flags : Nat
  is_bound : Bool
  local_key : List Nat
  session_key : Option (List Nat)
  auth_key : List Nat
  is_paired : Bool
  datapoints : TuyaBLEDataPoints
  pending_responses : List Nat
deriving DecidableEq

/-- The observable effects of one `_handle_command_or_response` call:
the updated state, the `_send_response` calls spawned (code, body,
`response_to`), the `_fire_callbacks` calls (each with its datapoint
list), the futures resolved (awaiter seq number and result byte), and
the exception raised, if any. -/
structure HandlerOutput where
  state : HandlerState
  sends : List (TuyaBLECode × List Nat × Nat)
  callbacks : List (List DataPoint)
  resolved : List (Nat × Nat)
  error : Option PyErr
deriving DecidableEq

/-- The future-resolution tail of `_handle_command_or_response` (lines
976–988), reached only when no exception was raised. -/
def resolveTail (st : HandlerState) (response_to result : Nat) (sends : List (TuyaBLECode × List Nat × Nat))
    (callbacks : List (List DataPoint)) : HandlerOutput :=
  if response_to ≠ 0 then
    if st.pending_responses.contains response_to then
      ⟨{ st with pending_responses := st.pending_responses.erase response_to },
        sends, callbacks, [(response_to, result)], none⟩
    else ⟨st, sends, callbacks, [], none⟩
  else ⟨st, sends, callbacks, [], none⟩

/-- Models `TuyaBLEDevice._handle_command_or_response`.  `seq_num` and
`response_to` are the fields of the decoded inbound message; the
`asyncio.create_task(self._send_response(…))` calls are recorded in
`sends`. -/
def handle_command_or_response (env : TimeEnv) (st : HandlerState)
    (seq_num response_to : Nat) (code : TuyaBLECode) (data : List Nat) : HandlerOutput :=
  match code with
  | .FUN_SENDER_DEVICE_INFO =>
    if data.length < 46 then ⟨st, [], [], [], some .dataLengthError⟩
    else
      let srand := (data.drop 6).take 6
      let st2 := { st with
        device_version := (data.getD 0 0, data.getD 1 0)
        protocol_version_str := (data.getD 2 0, data.getD 3 0)
        hardware_version := (data.getD 12 0, data.getD 13 0)
        protocol_version := data.getD 2 0
        flags := data.getD 4 0
        is_bound := data.getD 5 0 ≠ 0
        session_key := some (env.md5 (st.local_key ++ srand))
        auth_key := (data.drop 14).take 32 }
      resolveTail st2 response_to 0 [] []
  | .FUN_SENDER_PAIR =>
    if data.length ≠ 1 then ⟨st, [], [], [], some .dataLengthError⟩
    else
      let result0 := data.getD 0 0
      let result := if result0 = 2 then 0 else result0
      resolveTail { st with is_paired := result = 0 } response_to result [] []
  | .FUN_SENDER_DEVICE_STATUS =>
    if data.length ≠ 1 then ⟨st, [], [], [], some .dataLengthError⟩
    else resolveTail st response_to (data.getD 0 0) [] []
  | .FUN_RECEIVE_TIME1_REQ =>
    if data.length ≠ 0 then ⟨st, [], [], [], some .dataLengthError⟩
    else
      -- timestamp = int(time.time_ns() / 1000000); timezone = -int(time.timezone / 36)
      let tz : Int := -(Int.tdiv env.timezone 36)
      if tz < -32768 ∨ 32767 < tz then ⟨st, [], [], [], some .structError⟩
      else
        let body := asciiDecimal env.now_ms ++ packI16 tz
        resolveTail st response_to 0 [(code, body, seq_num)] []
  | .FUN_RECEIVE_TIME2_REQ =>
    if data.length ≠ 0 then ⟨st, [], [], [], some .dataLengthError⟩
    else
      let tz : Int := -(Int.tdiv env.timezone 36)
      let fields := [env.tm_year % 100, env.tm_mon, env.tm_mday, env.tm_hour,
        env.tm_min, env.tm_sec, env.tm_wday]
      if tz < -32768 ∨ 32767 < tz ∨ ¬ fields.all (· < 256) then
        ⟨st, [], [], [], some .structError⟩
      else
        resolveTail st response_to 0 [(code, fields ++ packI16 tz, seq_num)] []
  | .FUN_RECEIVE_DP =>
    let parsed := parse_datapoints_v3 st.datapoints env.now_sec 0 data 0
    let st2 := { st with datapoints := parsed.1 }
    match parsed.2.2 with
    | some e => ⟨st2, [], [], [], some e⟩
    | none => resolveTail st2 response_to 0 [(code, [], seq_num)] [parsed.2.1]
  | .FUN_RECEIVE_SIGN_DP =>
    let dp_seq_num := beNat (data.take 2)
    if data.length < 3 then ⟨st, [], [], [], some .indexError⟩
    else
      let flags := data.getD 2 0
      -- NOTE: the source parses the datapoint block from offset 2, so
      -- the flags byte is consumed again as the first datapoint id.
      let parsed := parse_datapoints_v3 st.datapoints env.now_sec flags data 2
      let st2 := { st with datapoints := parsed.1 }
      match parsed.2.2 with
      | some e => ⟨st2, [], [], [], some e⟩
      | none =>
        resolveTail st2 response_to 0
          [(code, pack16 dp_seq_num ++ [flags, 0], seq_num)] [parsed.2.1]
  | .FUN_RECEIVE_TIME_DP =>
    match parse_timestamp data 0 with
    | Except.error e => ⟨st, [], [], [], some e⟩
    | Except.ok (timestamp, pos) =>
      let parsed := parse_datapoints_v3 st.datapoints timestamp 0 data pos
      let st2 := { st with datapoints := parsed.1 }
      match parsed.2.2 with
      | some e => ⟨st2, [], [], [], some e⟩
      | none => resolveTail st2 response_to 0 [(code, [], seq_num)] [parsed.2.1]
  | .FUN_RECEIVE_SIGN_TIME_DP =>
    let dp_seq_num := beNat (data.take 2)
    if data.length < 3 then ⟨st, [], [], [], some .indexError⟩
    else
      let flags := data.getD 2 0
      match parse_timestamp data 3 with
      | Except.error e => ⟨st, [], [], [], some e⟩
      | Except.ok (_, pos) =>
        let parsed := parse_datapoints_v3 st.datapoints env.now_sec flags data pos
        let st2 := { st with datapoints := parsed.1 }
        match parsed.2.2 with
        | some e => ⟨st2, [], [], [], some e⟩
        | none =>
          resolveTail st2 response_to 0
            [(code, pack16 dp_seq_num ++ [flags, 0], seq_num)] [parsed.2.1]
  | _ => resolveTail st response_to 0 [] []

/-- Models `TuyaBLEDevice._build_pairing_request`: `uuid ‖ local_key ‖
device_id`, zero-padded while shorter than 44 bytes (`local_key` here is
the stored `self._local_key`, the 6-byte prefix taken at credential
load). -/
def build_pairing_request (uuid local_key device_id : List Nat) : List Nat :=
  let result := uuid ++ local_key ++ device_id
  result ++ List.replicate (44 - result.length) 0

/-- The `TuyaBLEDevice` fields relevant to the disconnect claim.  The
connection is `client = some b` (`b` = `is_connected`) or `none`;
`disconnected_callbacks_fired` counts `_fire_disconnected_callbacks`
invocations; `cancelled_responses` would list cancelled pending
futures. -/
structure DeviceState where
  expected_disconnect : Bool
  client : Option Bool
  current_seq_num : Nat
  rx : RxState
  session_key : Option (List Nat)
  pending_responses : List Nat
  cancelled_responses : List Nat
  disconnected_callbacks_fired : Nat
deriving DecidableEq

/-- Models `TuyaBLEDevice._execute_disconnect`: set the expected-disconnect
flag, forget the client (stopping notifications and disconnecting it —
transport effects outside this state), and reset the sequence number
to 1.  No other field is touched. -/
def execute_disconnect (s : DeviceState) : DeviceState :=
  { s with
    expected_disconnect := true
    client := none
    current_seq_num := 1 }

/-- The user-facing operations on a datapoint collection whose
interleavings the batch-counter claim quantifies over.  `setDp id`
stands for the `_update_from_user` step a `set_value` call performs. -/
inductive DpOp where
  | beginUpdate
  | endUpdate
  | setDp (id : Nat)
deriving DecidableEq

/-- Run a sequence of batch operations, collecting every id list handed
to `_send_datapoints` (from `end_update` flushes and from immediate
`_update_from_user` sends alike). -/
def run_ops (c : TuyaBLEDataPoints) : List DpOp → TuyaBLEDataPoints × List (List Nat)
  | [] => (c, [])
  | op :: rest =>
    let step : TuyaBLEDataPoints × Option (List Nat) :=
      match op with
      | .beginUpdate => (begin_update c, none)
      | .endUpdate => end_update c
      | .setDp id => update_from_user c id
    let next := run_ops step.1 rest
    (next.1, (match step.2 with | none => [] | some ids => [ids]) ++ next.2)

/-! ## Theorems -/

/-- Every operation of `run_ops` keeps the batch counter
non-negative. -/
theorem run_ops_nonneg (ops : List DpOp) :
    ∀ c : TuyaBLEDataPoints, 0 ≤ c.update_started → 0 ≤ ((run_ops c ops).1).update_started := by
  induction ops with
  | nil => intro c h; simpa [run_ops] using h
  | cons op rest ih =>
    intro c h
    cases op with
    | beginUpdate =>
      apply ih
      simp only [begin_update]
      omega
    | endUpdate =>
      simp only [run_ops, end_update]
      split_ifs with h1 h2
      · exact ih _ (by simp; omega)
      · exact ih _ (by simp; omega)
      · exact ih _ h
    | setDp id =>
      simp only [run_ops, update_from_user]
      split_ifs with h1
      · exact ih _ (by simpa using h)
      · exact ih _ h

/-- C10.  The batch counter never goes negative over any operation
sequence; `end_update` with no open batch is a complete no-op that sends
nothing; and an `end_update` triggers a send exactly when it brings a
counter of 1 to 0 with a non-empty dirty list. -/
theorem c10_batch_counter :
    (∀ ops : List DpOp, 0 ≤ ((run_ops emptyDataPoints ops).1).update_started) ∧
    (∀ c : TuyaBLEDataPoints, c.update_started = 0 → end_update c = (c, none)) ∧
    (∀ c : TuyaBLEDataPoints,
      (end_update c).2 ≠ none ↔ c.update_started = 1 ∧ c.updated_datapoints ≠ []) := by
  refine ⟨fun ops => run_ops_nonneg ops _ (by simp [emptyDataPoints]), ?_, ?_⟩
  · intro c h
    simp only [end_update]
    rw [if_neg (by omega)]
  · intro c
    simp only [end_update]
    split_ifs with h1 h2
    · simp only [ne_eq, reduceCtorEq, not_false_eq_true, true_iff]
      refine ⟨by omega, ?_⟩
      have := h2.2
      simp only [List.length_pos] at this
      exact this
    · simp only [ne_eq, not_true_eq_false, false_iff, not_and]
      intro hc hl
      exact h2 ⟨by omega, by simpa [List.length_pos] using hl⟩
    · simp only [ne_eq, not_true_eq_false, false_iff, not_and]
      intro hc
      omega

/-- Witness for `c10_batch_counter` at concrete inputs. -/
theorem c10_batch_counter_witness :
    (0 ≤ ((run_ops emptyDataPoints [.beginUpdate, .setDp 1, .endUpdate, .endUpdate]).1).update_started) ∧
    (end_update ⟨[], 0, [2]⟩ = (⟨[], 0, [2]⟩, none)) ∧
    ((end_update (⟨[], 1, [2]⟩ : TuyaBLEDataPoints)).2 ≠ none) :=
  ⟨c10_batch_counter.1 _, c10_batch_counter.2.1 _ rfl,
    (c10_batch_counter.2.2 _).mpr ⟨rfl, by decide⟩⟩

/-- C8, counterexample.  With a 16-byte uuid, the 6-byte local-key
prefix and a 23-byte device id the pair request body is 45 bytes, not
44: the padding loop only pads short bodies and never truncates. -/
theorem c8_counterexample :
    (build_pairing_request (List.replicate 16 97) (List.replicate 6 98)
      (List.replicate 23 99)).length = 45 ∧ (45 : Nat) ≠ 44 := by
  constructor
  · decide
  · decide

/-- C8, amended.  The pair request body is
`uuid ‖ local_key ‖ device_id` zero-padded to 44 bytes, hence exactly
44 bytes whenever the three parts total at most 44 bytes; longer
credentials produce a longer, unpadded body of their combined length. -/
theorem c8_pair_request_length (uuid local_key device_id : List Nat) :
    (build_pairing_request uuid local_key device_id).length =
      max 44 (uuid.length + local_key.length + device_id.length) ∧
    (uuid.length + local_key.length + device_id.length ≤ 44 →
      build_pairing_request uuid local_key device_id =
        uuid ++ local_key ++ device_id ++
          List.replicate (44 - (uuid.length + local_key.length + device_id.length)) 0) := by
  constructor
  · simp only [build_pairing_request, List.length_append, List.length_replicate]
    omega
  · intro _
    simp [build_pairing_request, List.length_append, List.append_assoc, Nat.add_assoc]

/-- Witness for `c8_pair_request_length`: a 16-byte uuid, 6-byte key
prefix and 22-byte device id give exactly 44 bytes. -/
theorem c8_pair_request_length_witness :
    (build_pairing_request (List.replicate 16 97) (List.replicate 6 98)
        (List.replicate 22 99)).length = max 44 (16 + 6 + 22) ∧
    build_pairing_request (List.replicate 16 97) (List.replicate 6 98)
        (List.replicate 22 99) =
      List.replicate 16 97 ++ List.replicate 6 98 ++ List.replicate 22 99 ++
        List.replicate (44 - (16 + 6 + 22)) 0 := by
  have h := c8_pair_request_length (List.replicate 16 97) (List.replicate 6 98)
    (List.replicate 22 99)
  simp only [List.length_replicate] at h
  exact ⟨h.1, h.2 (by omega)⟩

/-- C5, counterexample.  A datapoint first seen as `DT_BOOL` has its
type tag overwritten to `DT_VALUE` by a device-originated update:
`_update_from_device` stores the incoming type unconditionally. -/
theorem c5_counterexample :
    (dps_get
        (dps_update_from_device
          (get_or_create emptyDataPoints 1 TuyaBLEDataPointType.DT_BOOL
            (DpValue.boolean true) 0).1
          1 5 0 TuyaBLEDataPointType.DT_VALUE (DpValue.intval 3))
        1).map DataPoint.type = some TuyaBLEDataPointType.DT_VALUE ∧
    (dps_get
        (get_or_create emptyDataPoints 1 TuyaBLEDataPointType.DT_BOOL
          (DpValue.boolean true) 0).1
        1).map DataPoint.type = some TuyaBLEDataPointType.DT_BOOL ∧
    TuyaBLEDataPointType.DT_VALUE ≠ TuyaBLEDataPointType.DT_BOOL := by
  refine ⟨?_, ?_, by decide⟩
  · decide
  · decide

/-- C5, amended.  The type tag is never changed by `get_or_create` on an
existing id (the stored datapoint is returned untouched) nor by a user
`set_value` (every branch leaves `_type` alone); a device-originated
update, however, overwrites the type tag with the type carried by the
message. -/
theorem c5_type_stability (c : TuyaBLEDataPoints) (id : Nat)
    (ty : TuyaBLEDataPointType) (v : DpValue) (now : ℚ) :
    (∀ dp, dps_get c id = some dp → get_or_create c id ty v now = (c, dp)) ∧
    (∀ dp val dp2, set_value dp val = some dp2 → dp2.type = dp.type) ∧
    (∀ (dp : DataPoint) (t : ℚ) (f : Nat),
      (update_from_device dp t f ty v).type = ty) := by
  refine ⟨?_, ?_, fun dp t f => rfl⟩
  · intro dp h
    simp [get_or_create, h]
  · intro dp val dp2 h
    unfold set_value at h
    cases htype : dp.type <;> rw [htype] at h
    · rcases Option.map_eq_some'.mp h with ⟨b, _, hb⟩
      rw [← hb]
    · cases h
      rfl
    · rcases Option.map_eq_some'.mp h with ⟨n, _, hn⟩
      rw [← hn]
    · rcases Option.map_eq_some'.mp h with ⟨s, _, hs⟩
      rw [← hs]
    · rcases Option.bind_eq_some.mp h with ⟨n, _, hn⟩
      by_cases h0 : (0 : Int) ≤ n
      · rw [if_pos h0] at hn
        cases hn
        rfl
      · rw [if_neg h0] at hn
        cases hn
    · rcases Option.map_eq_some'.mp h with ⟨b, _, hb⟩
      rw [← hb]

/-- Witness for `c5_type_stability` at concrete inputs. -/
theorem c5_type_stability_witness :
    (get_or_create ⟨[(1, mkDataPoint 1 0 0 TuyaBLEDataPointType.DT_BOOL (DpValue.boolean true))], 0, []⟩
        1 TuyaBLEDataPointType.DT_VALUE DpValue.pynone 0 =
      (⟨[(1, mkDataPoint 1 0 0 TuyaBLEDataPointType.DT_BOOL (DpValue.boolean true))], 0, []⟩,
        mkDataPoint 1 0 0 TuyaBLEDataPointType.DT_BOOL (DpValue.boolean true))) ∧
    ((set_value (mkDataPoint 1 0 0 TuyaBLEDataPointType.DT_BOOL (DpValue.boolean true))
        (DpValue.intval 0)).map DataPoint.type = some TuyaBLEDataPointType.DT_BOOL) ∧
    (update_from_device (mkDataPoint 1 0 0 TuyaBLEDataPointType.DT_BOOL (DpValue.boolean true))
        3 0 TuyaBLEDataPointType.DT_VALUE (DpValue.intval 7)).type =
      TuyaBLEDataPointType.DT_VALUE := by
  refine ⟨?_, ?_, ?_⟩
  · exact (c5_type_stability _ 1 TuyaBLEDataPointType.DT_VALUE DpValue.pynone 0).1 _ (by decide)
  · have h := (c5_type_stability ⟨[], 0, []⟩ 1 TuyaBLEDataPointType.DT_VALUE DpValue.pynone 0).2.1
      (mkDataPoint 1 0 0 TuyaBLEDataPointType.DT_BOOL (DpValue.boolean true))
      (DpValue.intval 0)
    rw [show set_value (mkDataPoint 1 0 0 TuyaBLEDataPointType.DT_BOOL (DpValue.boolean true))
        (DpValue.intval 0) =
        some { mkDataPoint 1 0 0 TuyaBLEDataPointType.DT_BOOL (DpValue.boolean true) with
          value := DpValue.boolean false, changed_by_device := false } from by decide]
    rw [Option.map_some']
    rw [h _ (by decide)]
    rfl
  · exact (c5_type_stability ⟨[], 0, []⟩ 1 TuyaBLEDataPointType.DT_VALUE (DpValue.intval 7) 0).2.2
      _ 3 0

/-- C3.  Evaluating `_execute_disconnect` on a fully live state: it sets
the expected-disconnect flag, forgets the client and resets the
sequence number to 1, but the input reassembly buffer, the session key
and the pending response future all survive, no future is cancelled and
no disconnected callback fires — contradicting the claimed
disconnect postcondition. -/
theorem c3_execute_disconnect_effect :
    execute_disconnect
        ⟨false, some true, 7, ⟨some [1, 2], 3, 45⟩, some [9, 9], [5], [], 0⟩ =
      ⟨true, none, 1, ⟨some [1, 2], 3, 45⟩, some [9, 9], [5], [], 0⟩ ∧
    (⟨some [1, 2], 3, 45⟩ : RxState) ≠ clean_state ∧
    some [9, 9] ≠ (none : Option (List Nat)) ∧
    ([5] : List Nat) ≠ [] := by
  refine ⟨rfl, by decide, by decide, by decide⟩

/-- C7, counterexample.  With the reassembler expecting packet 2, a
stale fragment numbered 0 is not discarded: the handler resets the state
and then, since `0` now equals the expected packet number, consumes the
fragment as the first fragment of a new message — its payload bytes
`[9, 9, 9]` enter the fresh buffer. -/
theorem c7_counterexample :
    notification_step ⟨some [1, 2, 3], 2, 45⟩ [0, 45, 32, 9, 9, 9] =
      (⟨some [9, 9, 9], 1, 45⟩, none) ∧
    (⟨some [9, 9, 9], 1, 45⟩ : RxState) ≠ clean_state := by
  constructor
  · decide
  · decide

/-- C7, amended.  A stale fragment whose packet number satisfies
`1 ≤ packet_num < expected_packet_num` resets the reassembly state and
is discarded without contributing any bytes and without completing a
message; a stale fragment numbered 0, by contrast, is consumed as the
start of a new message after the reset. -/
theorem c7_stale_fragment (s : RxState) (d : List Nat) (m pos : Nat)
    (hu : unpack_int d 0 = some (m, pos)) (h1 : 1 ≤ m)
    (h2 : m < s.input_expected_packet_num) :
    notification_step s d = (clean_state, none) := by
  unfold notification_step
  rw [hu]
  simp only [h2, if_true, clean_state]
  rw [if_neg (by omega)]

/-- Witness for `c7_stale_fragment`. -/
theorem c7_stale_fragment_witness :
    unpack_int [1, 5] 0 = some (1, 1) ∧
    notification_step ⟨some [7], 3, 45⟩ [1, 5] = (clean_state, none) :=
  ⟨by decide,
    c7_stale_fragment ⟨some [7], 3, 45⟩ [1, 5] 1 1 (by decide) (by decide) (by decide)⟩

/-- Models `packGo` does not depend on the fuel, as long as it dominates the
argument. -/
theorem packGo_fuel : ∀ f g n : Nat, n < f → n < g → packGo f n = packGo g n := by
  intro f
  induction f with
  | zero => intro g n h; omega
  | succ f ih =>
    intro g n hf hg
    obtain ⟨g2, rfl⟩ : ∃ g2, g = g2 + 1 := ⟨g - 1, by omega⟩
    simp only [packGo]
    by_cases h0 : n / 128 = 0
    · rw [if_pos h0, if_pos h0]
    · rw [if_neg h0, if_neg h0]
      have hlt : n / 128 < n := Nat.div_lt_self (by omega) (by omega)
      rw [ih g2 (n / 128) (by omega) (by omega)]

/-- The do-while structure of `_pack_int`: one byte, with the
continuation bit added exactly when more digits follow. -/
theorem pack_int_unfold (n : Nat) :
    pack_int n =
      if n / 128 = 0 then [n % 128] else (n % 128 + 128) :: pack_int (n / 128) := by
  by_cases h0 : n / 128 = 0
  · rw [if_pos h0]
    unfold pack_int
    rw [packGo, if_pos h0]
  · rw [if_neg h0]
    unfold pack_int
    rw [packGo, if_neg h0]
    have hlt : n / 128 < n := Nat.div_lt_self (by omega) (by omega)
    rw [packGo_fuel n (n / 128 + 1) (n / 128) (by omega) (by omega)]

/-- An encoding is never empty. -/
theorem pack_int_length_pos (n : Nat) : 1 ≤ (pack_int n).length := by
  rw [pack_int_unfold]
  by_cases h0 : n / 128 = 0
  · rw [if_pos h0]; simp
  · rw [if_neg h0]; simp

/-- Values below `2 ^ (7 * (k + 1))` encode in at most `k + 1` bytes. -/
theorem pack_int_length_le : ∀ k n : Nat, n < 2 ^ (7 * (k + 1)) → (pack_int n).length ≤ k + 1 := by
  intro k
  induction k with
  | zero =>
    intro n h
    rw [pack_int_unfold, if_pos (by omega)]
    simp
  | succ k ih =>
    intro n h
    rw [pack_int_unfold]
    by_cases h0 : n / 128 = 0
    · rw [if_pos h0]; simp
    · rw [if_neg h0]
      simp only [List.length_cons]
      have hdiv : n / 128 < 2 ^ (7 * (k + 1)) := by
        have h2 : (2 : Nat) ^ (7 * (k + 1 + 1)) = 2 ^ (7 * (k + 1)) * 128 := by
          rw [show 7 * (k + 1 + 1) = 7 * (k + 1) + 7 from by ring, pow_add]
          norm_num
        rw [h2] at h
        omega
      have := ih (n / 128) hdiv
      omega

/-- The unpack loop inverts `_pack_int` wherever the encoding it is
pointed at fits in four bytes: the chunks are reassembled into the
original value and the final position is just past the encoding. -/
theorem unpackGo_pack (data : List Nat) (start : Nat) :
    ∀ n offset acc : Nat,
      offset + (pack_int n).length ≤ 4 →
      (∀ i, i < (pack_int n).length → data.get? (start + offset + i) = (pack_int n).get? i) →
      unpackGo data start (5 - offset) offset acc =
        some (acc + n * 2 ^ (7 * offset), start + offset + (pack_int n).length) := by
  intro n
  induction n using Nat.strong_induction_on with
  | _ n ih =>
    intro offset acc hlen hbytes
    by_cases h0 : n / 128 = 0
    · have hpack : pack_int n = [n % 128] := by rw [pack_int_unfold, if_pos h0]
      rw [hpack] at hlen hbytes ⊢
      simp only [List.length_singleton] at hlen ⊢
      have hb := hbytes 0 (by simp)
      simp only [Nat.add_zero, List.get?] at hb
      obtain ⟨r, hr⟩ : ∃ r, 5 - offset = r + 1 := ⟨4 - offset, by omega⟩
      rw [hr]
      unfold unpackGo
      rw [hb]
      simp only
      rw [if_pos (by omega), if_neg (by omega)]
      simp [Nat.mod_eq_of_lt (show n < 128 from by omega)]
    · have hpack : pack_int n = (n % 128 + 128) :: pack_int (n / 128) := by
        rw [pack_int_unfold, if_neg h0]
      rw [hpack] at hlen hbytes ⊢
      simp only [List.length_cons] at hlen ⊢
      have hb := hbytes 0 (by simp)
      simp only [Nat.add_zero, List.get?] at hb
      obtain ⟨r, hr⟩ : ∃ r, 5 - offset = r + 1 := ⟨4 - offset, by omega⟩
      rw [hr]
      unfold unpackGo
      rw [hb]
      simp only
      rw [if_neg (by
        have h1 : n % 128 < 128 := Nat.mod_lt _ (by omega)
        have h2 : (n % 128 + 128) / 128 = 1 := by omega
        rw [h2]
        omega)]
      have hrec : r = 5 - (offset + 1) := by omega
      rw [hrec]
      have hmod : (n % 128 + 128) % 128 = n % 128 := by omega
      rw [hmod]
      have hbytes2 : ∀ i, i < (pack_int (n / 128)).length →
          data.get? (start + (offset + 1) + i) = (pack_int (n / 128)).get? i := by
        intro i hi
        have := hbytes (i + 1) (by simp only [List.length_cons]; omega)
        rw [show start + offset + (i + 1) = start + (offset + 1) + i from by omega] at this
        rw [this]
        rfl
      have hlt : n / 128 < n := Nat.div_lt_self (by omega) (by omega)
      rw [ih (n / 128) hlt (offset + 1) (acc + n % 128 * 2 ^ (7 * offset)) (by omega) hbytes2]
      have hpow : (2 : Nat) ^ (7 * (offset + 1)) = 2 ^ (7 * offset) * 128 := by
        rw [show 7 * (offset + 1) = 7 * offset + 7 from by ring, pow_add]
        norm_num
      have hn : 128 * (n / 128) + n % 128 = n := Nat.div_add_mod n 128
      simp only [Option.some.injEq, Prod.mk.injEq]
      constructor
      · rw [hpow]
        have hsplit : n * 2 ^ (7 * offset) =
            (n % 128) * 2 ^ (7 * offset) + (n / 128) * (2 ^ (7 * offset) * 128) := by
          conv_lhs => rw [← hn]
          ring
        rw [hsplit]
        ring
      · omega

/-- Unpacking at the start of `pack_int n ++ rest` recovers `n`, for
encodings of at most four bytes. -/
theorem unpack_pack_int (n : Nat) (rest : List Nat) (h : (pack_int n).length ≤ 4) :
    unpack_int (pack_int n ++ rest) 0 = some (n, (pack_int n).length) := by
  have := unpackGo_pack (pack_int n ++ rest) 0 n 0 0 (by omega)
    (fun i hi => by
      rw [show (0 : Nat) + 0 + i = i from by omega]
      exact List.get?_append hi)
  simpa [unpack_int] using this

/-- Unpacking at position `pre.length` of `pre ++ pack_int n ++ rest`
recovers `n`, for encodings of at most four bytes. -/
theorem unpack_int_at (pre rest : List Nat) (n : Nat) (h : (pack_int n).length ≤ 4) :
    unpack_int (pre ++ (pack_int n ++ rest)) pre.length =
      some (n, pre.length + (pack_int n).length) := by
  have := unpackGo_pack (pre ++ (pack_int n ++ rest)) pre.length n 0 0 (by omega)
    (fun i hi => by
      rw [show pre.length + 0 + i = pre.length + i from by omega]
      rw [List.get?_append_right (by omega)]
      rw [show pre.length + i - pre.length = i from by omega]
      rw [List.get?_append hi])
  simpa [unpack_int] using this

/-- C6, counterexample.  `2 ^ 28 < 2 ^ 35`, but its 5-byte encoding is
rejected by `_unpack_int`: after consuming a fifth byte the check
`offset > 4` raises `TuyaBLEDataFormatError`, so the claimed round trip
fails for every value with a 5-byte encoding. -/
theorem c6_counterexample :
    pack_int 268435456 = [128, 128, 128, 128, 1] ∧
    unpack_int (pack_int 268435456) 0 = none ∧
    (268435456 : Nat) < 2 ^ 35 := by
  refine ⟨by decide, by decide, by decide⟩

/-- C6, amended.  For every value below `2 ^ 28` — that is, every value
whose 7-bit little-endian encoding fits in at most four bytes —
unpacking the packed bytes yields the original value and the position
advanced by the encoding's length, without error.  Values of five
encoded bytes (`2 ^ 28 ≤ n < 2 ^ 35`) are rejected by the unpacker. -/
theorem c6_varint_round_trip (n : Nat) (h : n < 2 ^ 28) :
    unpack_int (pack_int n) 0 = some (n, (pack_int n).length) := by
  have hlen : (pack_int n).length ≤ 4 := pack_int_length_le 3 n (by norm_num at h ⊢; omega)
  simpa using unpack_pack_int n [] hlen

/-- Witness for `c6_varint_round_trip` at `n = 300`. -/
theorem c6_varint_round_trip_witness :
    (300 : Nat) < 2 ^ 28 ∧ unpack_int (pack_int 300) 0 = some (300, (pack_int 300).length) :=
  ⟨by decide, c6_varint_round_trip 300 (by decide)⟩

/-- The CRC register stays below `2 ^ 16` across the inner rounds. -/
theorem crcRounds_lt (r : Nat) : ∀ crc : Nat, crc < 65536 → crcRounds r crc < 65536 := by
  induction r with
  | zero => intro crc h; simpa [crcRounds] using h
  | succ r ih =>
    intro crc h
    simp only [crcRounds]
    apply ih
    split_ifs
    · have h1 : crc / 2 < 2 ^ 16 := by omega
      have h2 : (0xA001 : Nat) < 2 ^ 16 := by norm_num
      have := Nat.xor_lt_two_pow h1 h2
      simpa using this
    · omega

/-- Models `_calc_crc16` always fits in 16 bits. -/
theorem calc_crc16_lt (data : List Nat) : calc_crc16 data < 65536 := by
  unfold calc_crc16
  have main : ∀ (l : List Nat) (init : Nat), init < 65536 →
      l.foldl (fun crc byte => crcRounds 8 (crc ^^^ byte % 256)) init < 65536 := by
    intro l
    induction l with
    | nil => intro init h; simpa using h
    | cons b rest ih =>
      intro init h
      simp only [List.foldl_cons]
      apply ih
      apply crcRounds_lt
      have h1 : init < 2 ^ 16 := by omega
      have h2 : b % 256 < 2 ^ 16 := by
        have : b % 256 < 256 := Nat.mod_lt _ (by omega)
        omega
      have := Nat.xor_lt_two_pow h1 h2
      simpa using this
  exact main data 0xFFFF (by norm_num)

/-- Reading back a packed 32-bit value. -/
theorem readU32_pack32 (n : Nat) (rest : List Nat) (h : n < 2 ^ 32) :
    readU32 (pack32 n ++ rest) = n := by
  simp only [pack32, List.cons_append, List.nil_append, readU32]
  omega

/-- Reading back a packed 16-bit value. -/
theorem readU16_pack16 (n : Nat) (rest : List Nat) (h : n < 2 ^ 16) :
    readU16 (pack16 n ++ rest) = n := by
  simp only [pack16, List.cons_append, List.nil_append, readU16]
  omega

/-- Dropping a packed 32-bit prefix. -/
theorem drop4_pack32 (n : Nat) (rest : List Nat) : (pack32 n ++ rest).drop 4 = rest := by
  simp [pack32]

/-- Dropping a packed 16-bit prefix. -/
theorem drop2_pack16 (n : Nat) (rest : List Nat) : (pack16 n ++ rest).drop 2 = rest := by
  simp [pack16]

/-- The enum lookup inverts `TuyaBLECode.value`. -/
theorem fromValue_value (c : TuyaBLECode) : TuyaBLECode.fromValue c.value = some c := by
  cases c <;> rfl

/-- Every opcode value fits in 16 bits. -/
theorem value_lt (c : TuyaBLECode) : c.value < 2 ^ 16 := by
  cases c <;> decide

/-- Decoding a buffer `flag ‖ iv ‖ ct` whose decryption is a padded
plaintext packet recovers the packet's fields, with the CRC check
passing. -/
theorem parse_input_plaintext (D : List Nat → List Nat → List Nat → List Nat)
    (auth_key login_key session_key : Option (List Nat)) (key iv ct body : List Nat)
    (flag seq_num response_to : Nat) (code : TuyaBLECode)
    (hkey : get_key auth_key login_key session_key flag = some key)
    (hiv : iv.length = 16)
    (hseq : seq_num < 2 ^ 32) (hresp : response_to < 2 ^ 32) (hbody : body.length ≤ 65535)
    (hD : D key iv ct = plaintext_packet seq_num response_to code body) :
    parse_input D auth_key login_key session_key (flag :: (iv ++ ct)) =
      some ⟨seq_num, response_to, code, body⟩ := by
  unfold parse_input
  simp only [List.get?_cons_zero]
  rw [hkey]
  dsimp only
  have hdrop1 : (flag :: (iv ++ ct)).drop 1 = iv ++ ct := rfl
  have hivtake : ((flag :: (iv ++ ct)).drop 1).take 16 = iv := by
    rw [hdrop1, List.take_left' hiv]
  have hctdrop : (flag :: (iv ++ ct)).drop 17 = ct := by
    show (iv ++ ct).drop 16 = ct
    rw [List.drop_left' hiv]
  rw [hivtake, hctdrop, hD]
  set L := body.length with hL
  set hdrbody := pack32 seq_num ++ pack32 response_to ++ pack16 code.value ++
    pack16 L ++ body with hhdr
  have hhdrlen : hdrbody.length = 12 + L := by
    simp [hhdr, pack32, pack16]
    omega
  set crc := calc_crc16 hdrbody with hcrc
  have hcrclt : crc < 65536 := calc_crc16_lt hdrbody
  set padding := List.replicate ((16 - (hdrbody ++ pack16 crc).length % 16) % 16) 0
    with hpad
  have hplain : plaintext_packet seq_num response_to code body =
      hdrbody ++ (pack16 crc ++ padding) := by
    simp only [plaintext_packet, hhdr, hpad, hcrc, hL, List.append_assoc]
  rw [hplain]
  have hlen_all : (hdrbody ++ (pack16 crc ++ padding)).length = 14 + L + padding.length := by
    simp [hhdrlen, pack16]
    omega
  rw [if_neg (by omega)]
  have hread_seq : readU32 (hdrbody ++ (pack16 crc ++ padding)) = seq_num := by
    simp only [hhdr, List.append_assoc]
    exact readU32_pack32 _ _ hseq
  have hdrop4 : (hdrbody ++ (pack16 crc ++ padding)).drop 4 =
      pack32 response_to ++ pack16 code.value ++ pack16 L ++ body ++
        (pack16 crc ++ padding) := by
    simp only [hhdr, List.append_assoc]
    rw [drop4_pack32]
  have hread_resp : readU32 ((hdrbody ++ (pack16 crc ++ padding)).drop 4) = response_to := by
    rw [hdrop4]
    simp only [List.append_assoc]
    exact readU32_pack32 _ _ hresp
  have hdrop8 : (hdrbody ++ (pack16 crc ++ padding)).drop 8 =
      pack16 code.value ++ pack16 L ++ body ++ (pack16 crc ++ padding) := by
    rw [show (8 : Nat) = 4 + 4 from rfl, ← List.drop_drop, hdrop4]
    simp only [List.append_assoc]
    rw [drop4_pack32]
  have hread_code : readU16 ((hdrbody ++ (pack16 crc ++ padding)).drop 8) = code.value := by
    rw [hdrop8]
    simp only [List.append_assoc]
    exact readU16_pack16 _ _ (value_lt code)
  have hdrop10 : (hdrbody ++ (pack16 crc ++ padding)).drop 10 =
      pack16 L ++ body ++ (pack16 crc ++ padding) := by
    rw [show (10 : Nat) = 8 + 2 from rfl, ← List.drop_drop, hdrop8]
    simp only [List.append_assoc]
    rw [drop2_pack16]
  have hread_len : readU16 ((hdrbody ++ (pack16 crc ++ padding)).drop 10) = L := by
    rw [hdrop10]
    simp only [List.append_assoc]
    exact readU16_pack16 _ _ (by omega)
  have hdrop12 : (hdrbody ++ (pack16 crc ++ padding)).drop 12 =
      body ++ (pack16 crc ++ padding) := by
    rw [show (12 : Nat) = 10 + 2 from rfl, ← List.drop_drop, hdrop10]
    simp only [List.append_assoc]
    rw [drop2_pack16]
  rw [hread_seq, hread_resp, hread_code, hread_len]
  rw [if_neg (by omega)]
  rw [if_pos (by omega)]
  rw [if_neg (by omega)]
  have htake_hdr : (hdrbody ++ (pack16 crc ++ padding)).take (L + 12) = hdrbody := by
    rw [List.take_left' (by omega)]
  have hdrop_crc : (hdrbody ++ (pack16 crc ++ padding)).drop (L + 12) =
      pack16 crc ++ padding := by
    rw [List.drop_left' (by omega)]
  rw [htake_hdr, hdrop_crc, readU16_pack16 _ _ (by omega)]
  rw [if_neg (by simp [hcrc])]
  rw [hdrop12, List.take_left' rfl]
  rw [fromValue_value]

/-- C1.  Codec round trip: for every outbound message with a body of at
most 65535 bytes, every pair of 16-byte keys, every 16-byte IV and
every block cipher whose decryption inverts its encryption (the law
AES-CBC satisfies), decoding the encoded encrypted buffer with the same
key material recovers exactly the original `seq_num`, `response_to`,
opcode and body, with the CRC check passing. -/
theorem c1_codec_round_trip (E D : List Nat → List Nat → List Nat → List Nat)
    (auth_key : Option (List Nat)) (lk sk iv body : List Nat) (code : TuyaBLECode)
    (seq_num response_to : Nat)
    (hED : ∀ k i x, D k i (E k i x) = x)
    (hlk : lk.length = 16) (hsk : sk.length = 16) (hiv : iv.length = 16)
    (hseq : seq_num < 2 ^ 32) (hresp : response_to < 2 ^ 32)
    (hbody : body.length ≤ 65535) :
    (build_encrypted E (some lk) (some sk) seq_num code body response_to iv).bind
        (parse_input D auth_key (some lk) (some sk)) =
      some ⟨seq_num, response_to, code, body⟩ := by
  by_cases hcode : code = TuyaBLECode.FUN_SENDER_DEVICE_INFO
  · simp only [build_encrypted, if_pos hcode]
    rw [Option.some_bind, List.cons_append]
    exact parse_input_plaintext D auth_key (some lk) (some sk) lk iv _ body 4
      seq_num response_to code (by simp [get_key]) hiv hseq hresp hbody (hED lk iv _)
  · simp only [build_encrypted, if_neg hcode]
    rw [Option.some_bind, List.cons_append]
    exact parse_input_plaintext D auth_key (some lk) (some sk) sk iv _ body 5
      seq_num response_to code (by simp [get_key]) hiv hseq hresp hbody (hED sk iv _)

/-- Witness for `c1_codec_round_trip`: the identity cipher, concrete
keys, IV and body, on a session-key opcode. -/
theorem c1_codec_round_trip_witness :
    (build_encrypted (fun _ _ x => x) (some (List.replicate 16 1))
          (some (List.replicate 16 2)) 1 TuyaBLECode.FUN_SENDER_PAIR [10, 20] 0
          (List.replicate 16 3)).bind
        (parse_input (fun _ _ x => x) none (some (List.replicate 16 1))
          (some (List.replicate 16 2))) =
      some ⟨1, 0, TuyaBLECode.FUN_SENDER_PAIR, [10, 20]⟩ :=
  c1_codec_round_trip (fun _ _ x => x) (fun _ _ x => x) none (List.replicate 16 1)
    (List.replicate 16 2) (List.replicate 16 3) [10, 20] TuyaBLECode.FUN_SENDER_PAIR 1 0
    (fun _ _ _ => rfl) (by decide) (by decide) (by decide) (by decide) (by decide)
    (by decide)

/-- The fragment loop stops once the whole buffer is consumed. -/
theorem fragGo_nil_of_le (buf : List Nat) (v : Nat) (fuel pos num : Nat)
    (h : buf.length ≤ pos) : fragGo buf v fuel pos num = [] := by
  cases fuel with
  | zero => rfl
  | succ f =>
    unfold fragGo
    rw [if_neg (by omega)]

/-- A notification whose packet number exceeds the expected one is the
missing-fragment case: reset and drop. -/
theorem notification_step_skip (s : RxState) (d : List Nat) (m p : Nat)
    (hu : unpack_int d 0 = some (m, p)) (hgt : s.input_expected_packet_num < m) :
    notification_step s d = (clean_state, none) := by
  unfold notification_step
  rw [hu]
  simp only
  rw [if_neg (show ¬ m < s.input_expected_packet_num from by omega)]
  rw [if_neg (show ¬ m = s.input_expected_packet_num from by omega)]

/-- Every fragment produced by the loop with a positive starting packet
number begins with the varint of a packet number at least that large
(and the varint parses back). -/
theorem fragGo_head_unpack (buf : List Nat) (v : Nat) :
    ∀ fuel pos num : Nat, 1 ≤ num → num + fuel ≤ 2 ^ 28 →
      ∀ fr ∈ fragGo buf v fuel pos num,
        ∃ m p, num ≤ m ∧ unpack_int fr 0 = some (m, p) := by
  intro fuel
  induction fuel with
  | zero => intro pos num _ _ fr hfr; simp [fragGo] at hfr
  | succ f ih =>
    intro pos num h1 h28 fr hfr
    unfold fragGo at hfr
    by_cases hpos : pos < buf.length
    · rw [if_pos hpos] at hfr
      simp only [List.mem_cons] at hfr
      rcases hfr with hfr | hfr
      · refine ⟨num, (pack_int num).length, le_refl _, ?_⟩
        rw [hfr]
        rw [if_neg (by omega), List.append_nil]
        exact unpack_pack_int num _ (pack_int_length_le 3 num (by norm_num; omega))
      · rcases ih _ (num + 1) (by omega) (by omega) fr hfr with ⟨m, p, hm, hp⟩
        exact ⟨m, p, by omega, hp⟩
    · rw [if_neg hpos] at hfr
      simp at hfr

/-- Feeding fragments that all begin with a positive packet number to a
clean reassembler leaves it clean and yields no message. -/
theorem feed_clean_of_heads (frames : List (List Nat))
    (h : ∀ fr ∈ frames, ∃ m p, 1 ≤ m ∧ unpack_int fr 0 = some (m, p)) :
    notification_feed clean_state frames = (clean_state, []) := by
  induction frames with
  | nil => rfl
  | cons fr rest ih =>
    rcases h fr (by simp) with ⟨m, p, hm, hp⟩
    have hstep : notification_step clean_state fr = (clean_state, none) :=
      notification_step_skip _ _ m p hp (by simp [clean_state]; omega)
    simp only [notification_feed, hstep]
    rw [ih (fun fr2 hfr2 => h fr2 (by simp [hfr2]))]

/-- Handling a non-first fragment of the loop: the payload slice is
appended to the buffer; the message completes exactly when the buffer
is filled. -/
theorem notification_step_frag (buf : List Nat) (pos num : Nat)
    (h1 : 1 ≤ num) (hnum : num ≤ 65535) (hpos : pos < buf.length) :
    notification_step ⟨some (buf.take pos), num, buf.length⟩
        (pack_int num ++ (buf.drop pos).take (20 - (pack_int num).length)) =
      (if buf.length ≤ pos + (20 - (pack_int num).length) then (clean_state, some buf)
       else
        (⟨some (buf.take (pos + (20 - (pack_int num).length))), num + 1, buf.length⟩,
          none)) := by
  have hlen3 : (pack_int num).length ≤ 3 :=
    pack_int_length_le 2 num (by norm_num at hnum ⊢; omega)
  set k := 20 - (pack_int num).length with hk
  have hk17 : 17 ≤ k := by omega
  unfold notification_step
  rw [unpack_pack_int num _ (by omega)]
  simp only
  rw [if_neg (show ¬ num < num from by omega)]
  rw [if_pos (show num = (⟨some (buf.take pos), num, buf.length⟩ : RxState).input_expected_packet_num from rfl)]
  rw [if_neg (show ¬ num = 0 from by omega)]
  simp only
  have hdrop : (pack_int num ++ (buf.drop pos).take k).drop (pack_int num).length =
      (buf.drop pos).take k := List.drop_left _ _
  rw [hdrop]
  rw [← List.take_add]
  have hlen2 : (buf.take (pos + k)).length = min (pos + k) buf.length := by simp
  by_cases hend : buf.length ≤ pos + k
  · rw [if_pos hend]
    have hfull : buf.take (pos + k) = buf := List.take_of_length_le (by omega)
    rw [hfull]
    rw [if_neg (by simp), if_pos (by simp)]
  · rw [if_neg hend]
    rw [if_neg (by simp only [List.length_take]; omega)]
    rw [if_neg (by simp only [List.length_take]; omega)]

/-- Feeding the fragments the loop produces from position `pos` onward
(with a positive packet number) to a matching reassembler state
completes exactly on the last fragment, producing the full buffer and a
reset state. -/
theorem feed_fragGo (buf : List Nat) (v : Nat) (h2 : buf.length ≤ 65535) :
    ∀ fuel pos num : Nat, 1 ≤ num → num ≤ pos → pos < buf.length →
      buf.length - pos ≤ fuel →
      notification_feed ⟨some (buf.take pos), num, buf.length⟩ (fragGo buf v fuel pos num) =
        (clean_state, [buf]) := by
  intro fuel
  induction fuel with
  | zero => intro pos num _ _ hpos hfuel; omega
  | succ f ih =>
    intro pos num h1 hnp hpos hfuel
    have hnum : num ≤ 65535 := by omega
    unfold fragGo
    rw [if_pos hpos]
    rw [if_neg (show ¬ num = 0 from by omega), List.append_nil]
    simp only [GATT_MTU]
    have hlen3 : (pack_int num).length ≤ 3 :=
      pack_int_length_le 2 num (by norm_num at hnum ⊢; omega)
    set k := 20 - (pack_int num).length with hk
    have hk17 : 17 ≤ k := by omega
    have hpart : ((buf.drop pos).take k).length = min k (buf.length - pos) := by simp
    simp only [notification_feed]
    rw [notification_step_frag buf pos num h1 hnum hpos]
    by_cases hend : buf.length ≤ pos + k
    · rw [if_pos hend]
      have hparteq : ((buf.drop pos).take k).length = buf.length - pos := by
        rw [hpart]; omega
      rw [hparteq]
      rw [fragGo_nil_of_le buf v f (pos + (buf.length - pos)) (num + 1) (by omega)]
      simp [notification_feed]
    · rw [if_neg hend]
      have hparteq : ((buf.drop pos).take k).length = k := by rw [hpart]; omega
      rw [hparteq]
      rw [ih (pos + k) (num + 1) (by omega) (by omega) (by omega) (by omega)]

/-- Unfolding one iteration of the fragment loop. -/
theorem fragGo_step (buf : List Nat) (v fuel pos num : Nat) (hfuel : 1 ≤ fuel)
    (h : pos < buf.length) :
    fragGo buf v fuel pos num =
      ((pack_int num ++ (if num = 0 then pack_int buf.length ++ [v * 16] else [])) ++
          (buf.drop pos).take (GATT_MTU -
            (pack_int num ++
              (if num = 0 then pack_int buf.length ++ [v * 16] else [])).length)) ::
        fragGo buf v (fuel - 1)
          (pos + ((buf.drop pos).take (GATT_MTU -
            (pack_int num ++
              (if num = 0 then pack_int buf.length ++ [v * 16] else [])).length)).length)
          (num + 1) := by
  obtain ⟨f, rfl⟩ : ∃ f, fuel = f + 1 := ⟨fuel - 1, by omega⟩
  conv_lhs => unfold fragGo
  rw [if_pos h]
  dsimp only
  rw [Nat.add_sub_cancel]

/-- For a non-empty buffer the fragment list is the first fragment
(varint 0, varint total length, version byte, payload slice) followed by
the loop's remaining fragments. -/
theorem build_fragments_cons (buf : List Nat) (v : Nat) (h1 : 1 ≤ buf.length) :
    build_fragments buf v =
      ((pack_int 0 ++ (pack_int buf.length ++ [v * 16])) ++
          buf.take (20 - (pack_int 0 ++ (pack_int buf.length ++ [v * 16])).length)) ::
        fragGo buf v (buf.length - 1)
          ((buf.take (20 - (pack_int 0 ++ (pack_int buf.length ++ [v * 16])).length)).length)
          1 := by
  unfold build_fragments
  rw [fragGo_step buf v buf.length 0 0 (by omega) (by omega)]
  rw [if_pos (rfl : (0 : Nat) = 0)]
  simp only [GATT_MTU, List.drop_zero, Nat.zero_add]

/-- Handling the first fragment from a clean reassembler: the expected
length is read, the version byte skipped, and the payload becomes the
buffer; the message completes at once when the whole buffer fits. -/
theorem step_frag0 (buf : List Nat) (v k : Nat) (h1 : 1 ≤ buf.length)
    (h2 : buf.length ≤ 65535)
    (hk : k = 20 - (pack_int 0 ++ (pack_int buf.length ++ [v * 16])).length) :
    notification_step clean_state
        ((pack_int 0 ++ (pack_int buf.length ++ [v * 16])) ++ buf.take k) =
      (if buf.length ≤ k then (clean_state, some buf)
       else (⟨some (buf.take k), 1, buf.length⟩, none)) := by
  have hplen : (pack_int buf.length).length ≤ 3 :=
    pack_int_length_le 2 _ (by norm_num at h2 ⊢; omega)
  have hp0 : pack_int 0 = [0] := rfl
  have hhdrlen : (pack_int 0 ++ (pack_int buf.length ++ [v * 16])).length =
      1 + (pack_int buf.length).length + 1 := by
    simp [hp0]
    omega
  have hk15 : 15 ≤ k := by omega
  unfold notification_step
  rw [List.append_assoc]
  rw [show (pack_int buf.length ++ [v * 16]) ++ buf.take k =
    pack_int buf.length ++ ([v * 16] ++ buf.take k) from List.append_assoc _ _ _]
  have hu1 : unpack_int
      (pack_int 0 ++ (pack_int buf.length ++ ([v * 16] ++ buf.take k))) 0 =
      some (0, 1) := by
    rw [unpack_pack_int 0 _ (by decide)]
    rfl
  rw [hu1]
  dsimp only
  rw [if_neg (show ¬ (0 : Nat) < clean_state.input_expected_packet_num from by
    simp [clean_state])]
  rw [if_pos (show (0 : Nat) = clean_state.input_expected_packet_num from rfl)]
  rw [if_pos (rfl : (0 : Nat) = 0)]
  have hu2 : unpack_int
      (pack_int 0 ++ (pack_int buf.length ++ ([v * 16] ++ buf.take k))) 1 =
      some (buf.length, 1 + (pack_int buf.length).length) := by
    have := unpack_int_at (pack_int 0) ([v * 16] ++ buf.take k) buf.length (by omega)
    simpa [hp0] using this
  rw [hu2]
  dsimp only
  have hdropfrag :
      (pack_int 0 ++ (pack_int buf.length ++ ([v * 16] ++ buf.take k))).drop
        (1 + (pack_int buf.length).length + 1) = buf.take k := by
    rw [show pack_int 0 ++ (pack_int buf.length ++ ([v * 16] ++ buf.take k)) =
      (pack_int 0 ++ (pack_int buf.length ++ [v * 16])) ++ buf.take k from by
        simp [List.append_assoc]]
    exact List.drop_left' hhdrlen
  rw [hdropfrag]
  simp only [List.nil_append]
  have hlen2 : (buf.take k).length = min k buf.length := by simp
  by_cases hend : buf.length ≤ k
  · rw [if_pos hend]
    have hfull : buf.take k = buf := List.take_of_length_le (by omega)
    rw [hfull]
    rw [if_neg (by simp), if_pos (by simp)]
  · rw [if_neg hend]
    rw [if_neg (by simp only [List.length_take]; omega)]
    rw [if_neg (by simp only [List.length_take]; omega)]
    rfl

/-- Feeding the whole fragment list of a buffer to a clean reassembler
reconstructs exactly the buffer, completing on the last fragment and
leaving the state reset. -/
theorem feed_build_fragments (buf : List Nat) (v : Nat) (h1 : 1 ≤ buf.length)
    (h2 : buf.length ≤ 65535) :
    notification_feed clean_state (build_fragments buf v) = (clean_state, [buf]) := by
  rw [build_fragments_cons buf v h1]
  have hplen : (pack_int buf.length).length ≤ 3 :=
    pack_int_length_le 2 _ (by norm_num at h2 ⊢; omega)
  have hhdrlen : (pack_int 0 ++ (pack_int buf.length ++ [v * 16])).length =
      1 + (pack_int buf.length).length + 1 := by
    simp [show pack_int 0 = [0] from rfl]
    omega
  set k := 20 - (pack_int 0 ++ (pack_int buf.length ++ [v * 16])).length with hk
  have hk15 : 15 ≤ k := by omega
  simp only [notification_feed]
  rw [step_frag0 buf v k h1 h2 hk]
  by_cases hend : buf.length ≤ k
  · rw [if_pos hend]
    rw [fragGo_nil_of_le buf v (buf.length - 1) ((buf.take k).length) 1
      (by simp only [List.length_take]; omega)]
    simp [notification_feed]
  · rw [if_neg hend]
    have htk : (buf.take k).length = k := by simp only [List.length_take]; omega
    rw [htk]
    rw [feed_fragGo buf v h2 (buf.length - 1) k 1 (by omega) (by omega) (by omega)
      (by omega)]

/-- Feeding fragments whose leading packet numbers all exceed the
expected one yields no message: the first resets the state, the rest are
dropped from the clean state. -/
theorem feed_drop_of_heads (frames : List (List Nat)) :
    ∀ s : RxState,
      (∀ fr ∈ frames, ∃ m p, s.input_expected_packet_num < m ∧ unpack_int fr 0 = some (m, p)) →
      (notification_feed s frames).2 = [] := by
  induction frames with
  | nil => intro s _; rfl
  | cons fr rest ih =>
    intro s h
    rcases h fr (by simp) with ⟨m, p, hm, hp⟩
    have hstep : notification_step s fr = (clean_state, none) :=
      notification_step_skip _ _ m p hp hm
    simp only [notification_feed, hstep]
    apply ih clean_state
    intro fr2 hfr2
    rcases h fr2 (by simp [hfr2]) with ⟨m2, p2, hm2, hp2⟩
    exact ⟨m2, p2, by simp [clean_state]; omega, hp2⟩

/-- Strengthening of `feed_drop_of_heads` for a non-empty fragment
list: the first fragment resets the state, every later one is dropped
from the clean state, so the final state is the clean one. -/
theorem feed_drop_of_heads_state (frames : List (List Nat)) :
    ∀ s : RxState, frames ≠ [] →
      (∀ fr ∈ frames, ∃ m p, s.input_expected_packet_num < m ∧ unpack_int fr 0 = some (m, p)) →
      notification_feed s frames = (clean_state, []) := by
  induction frames with
  | nil => intro s hne _; exact absurd rfl hne
  | cons fr rest ih =>
    intro s _ h
    rcases h fr (by simp) with ⟨m, p, hm, hp⟩
    have hstep : notification_step s fr = (clean_state, none) :=
      notification_step_skip _ _ m p hp hm
    simp only [notification_feed, hstep]
    cases rest with
    | nil => rfl
    | cons fr2 rest2 =>
      have := ih clean_state (by simp) (fun fr3 hfr3 => by
        rcases h fr3 (by simp [hfr3]) with ⟨m3, p3, hm3, hp3⟩
        exact ⟨m3, p3, by simp [clean_state]; omega, hp3⟩)
      simpa using this

/-- Removing any single fragment from the loop's output makes
reassembly yield no message: the fragment after the gap resets the
state and every later fragment is dropped; if the last fragment is the
missing one the message simply never completes. -/
theorem feed_fragGo_erase (buf : List Nat) (v : Nat) (h2 : buf.length ≤ 65535) :
    ∀ fuel pos num j : Nat, 1 ≤ num → num ≤ pos → pos < buf.length →
      buf.length - pos ≤ fuel → num + fuel ≤ 65536 →
      j < (fragGo buf v fuel pos num).length →
      (notification_feed ⟨some (buf.take pos), num, buf.length⟩
        ((fragGo buf v fuel pos num).eraseIdx j)).2 = [] := by
  intro fuel
  induction fuel with
  | zero => intro pos num j _ _ hpos hfuel _ hj; omega
  | succ f ih =>
    intro pos num j h1 hnp hpos hfuel h28 hj
    have hnum : num ≤ 65535 := by omega
    rw [fragGo_step buf v (f + 1) pos num (by omega) hpos] at hj ⊢
    rw [if_neg (show ¬ num = 0 from by omega), List.append_nil] at hj ⊢
    simp only [GATT_MTU, Nat.add_sub_cancel] at hj ⊢
    have hlen3 : (pack_int num).length ≤ 3 :=
      pack_int_length_le 2 num (by norm_num at hnum ⊢; omega)
    set k := 20 - (pack_int num).length with hk
    have hk17 : 17 ≤ k := by omega
    cases j with
    | zero =>
      rw [List.eraseIdx_cons_zero]
      apply feed_drop_of_heads
      intro fr hfr
      rcases fragGo_head_unpack buf v f
          (pos + ((buf.drop pos).take k).length) (num + 1) (by omega)
          (by norm_num; omega) fr hfr with ⟨m, p, hm, hp⟩
      exact ⟨m, p, by simp only; omega, hp⟩
    | succ j2 =>
      rw [List.eraseIdx_cons_succ]
      have hj2 : j2 < (fragGo buf v f (pos + ((buf.drop pos).take k).length) (num + 1)).length := by
        simp only [List.length_cons] at hj
        omega
      have hrest : fragGo buf v f (pos + ((buf.drop pos).take k).length) (num + 1) ≠ [] := by
        intro hnil
        rw [hnil] at hj2
        simp at hj2
      have hpos2 : pos + ((buf.drop pos).take k).length < buf.length := by
        by_contra hge
        exact hrest (fragGo_nil_of_le _ _ _ _ _ (by omega))
      have htk : ((buf.drop pos).take k).length = k := by
        have hmin : ((buf.drop pos).take k).length = min k (buf.length - pos) := by simp
        rw [hmin] at hpos2 ⊢
        omega
      rw [htk] at hj2 ⊢
      simp only [notification_feed]
      rw [notification_step_frag buf pos num h1 hnum hpos]
      rw [if_neg (by omega)]
      have := ih (pos + k) (num + 1) j2 (by omega) (by omega) (by omega) (by omega)
        (by omega) hj2
      simpa using this

/-- Removing a fragment of the loop's output other than the last one
moreover resets the reassembly state: the fragment after the gap
carries a larger packet number than expected and triggers
`_clean_input`, and every later fragment is dropped from the clean
state. -/
theorem feed_fragGo_erase_reset (buf : List Nat) (v : Nat) (h2 : buf.length ≤ 65535) :
    ∀ fuel pos num j : Nat, 1 ≤ num → num ≤ pos → pos < buf.length →
      buf.length - pos ≤ fuel → num + fuel ≤ 65536 →
      j + 1 < (fragGo buf v fuel pos num).length →
      notification_feed ⟨some (buf.take pos), num, buf.length⟩
        ((fragGo buf v fuel pos num).eraseIdx j) = (clean_state, []) := by
  intro fuel
  induction fuel with
  | zero => intro pos num j _ _ hpos hfuel _ hj; omega
  | succ f ih =>
    intro pos num j h1 hnp hpos hfuel h28 hj
    have hnum : num ≤ 65535 := by omega
    rw [fragGo_step buf v (f + 1) pos num (by omega) hpos] at hj ⊢
    rw [if_neg (show ¬ num = 0 from by omega), List.append_nil] at hj ⊢
    simp only [GATT_MTU, Nat.add_sub_cancel] at hj ⊢
    have hlen3 : (pack_int num).length ≤ 3 :=
      pack_int_length_le 2 num (by norm_num at hnum ⊢; omega)
    set k := 20 - (pack_int num).length with hk
    have hk17 : 17 ≤ k := by omega
    cases j with
    | zero =>
      rw [List.eraseIdx_cons_zero]
      have hne : fragGo buf v f (pos + ((buf.drop pos).take k).length) (num + 1) ≠ [] := by
        intro hnil
        rw [hnil] at hj
        simp at hj
      apply feed_drop_of_heads_state _ _ hne
      intro fr hfr
      rcases fragGo_head_unpack buf v f
          (pos + ((buf.drop pos).take k).length) (num + 1) (by omega)
          (by norm_num; omega) fr hfr with ⟨m, p, hm, hp⟩
      exact ⟨m, p, by simp only; omega, hp⟩
    | succ j2 =>
      rw [List.eraseIdx_cons_succ]
      have hj2 : j2 + 1 <
          (fragGo buf v f (pos + ((buf.drop pos).take k).length) (num + 1)).length := by
        simp only [List.length_cons] at hj
        omega
      have hrest : fragGo buf v f (pos + ((buf.drop pos).take k).length) (num + 1) ≠ [] := by
        intro hnil
        rw [hnil] at hj2
        simp at hj2
      have hpos2 : pos + ((buf.drop pos).take k).length < buf.length := by
        by_contra hge
        exact hrest (fragGo_nil_of_le _ _ _ _ _ (by omega))
      have htk : ((buf.drop pos).take k).length = k := by
        have hmin : ((buf.drop pos).take k).length = min k (buf.length - pos) := by simp
        rw [hmin] at hpos2 ⊢
        omega
      rw [htk] at hj2 ⊢
      simp only [notification_feed]
      rw [notification_step_frag buf pos num h1 hnum hpos]
      rw [if_neg (by omega)]
      have := ih (pos + k) (num + 1) j2 (by omega) (by omega) (by omega) (by omega)
        (by omega) hj2
      simpa using this

/-- Removing any single fragment of a buffer's fragment list makes the
reassembler yield no message at all. -/
theorem feed_build_fragments_erase (buf : List Nat) (v : Nat) (h1 : 1 ≤ buf.length)
    (h2 : buf.length ≤ 65535) :
    ∀ j, j < (build_fragments buf v).length →
      (notification_feed clean_state ((build_fragments buf v).eraseIdx j)).2 = [] := by
  intro j hj
  rw [build_fragments_cons buf v h1] at hj ⊢
  have hplen : (pack_int buf.length).length ≤ 3 :=
    pack_int_length_le 2 _ (by norm_num at h2 ⊢; omega)
  have hhdrlen : (pack_int 0 ++ (pack_int buf.length ++ [v * 16])).length =
      1 + (pack_int buf.length).length + 1 := by
    simp [show pack_int 0 = [0] from rfl]
    omega
  set k := 20 - (pack_int 0 ++ (pack_int buf.length ++ [v * 16])).length with hk
  have hk15 : 15 ≤ k := by omega
  cases j with
  | zero =>
    rw [List.eraseIdx_cons_zero]
    apply feed_drop_of_heads
    intro fr hfr
    rcases fragGo_head_unpack buf v (buf.length - 1) ((buf.take k).length) 1 (by omega)
        (by norm_num; omega) fr hfr with ⟨m, p, hm, hp⟩
    exact ⟨m, p, by simp [clean_state]; omega, hp⟩
  | succ j2 =>
    rw [List.eraseIdx_cons_succ]
    have hj2 : j2 < (fragGo buf v (buf.length - 1) ((buf.take k).length) 1).length := by
      simp only [List.length_cons] at hj
      omega
    have hrest : fragGo buf v (buf.length - 1) ((buf.take k).length) 1 ≠ [] := by
      intro hnil
      rw [hnil] at hj2
      simp at hj2
    have hkL : k < buf.length := by
      by_contra hge
      exact hrest (fragGo_nil_of_le _ _ _ _ _ (by simp only [List.length_take]; omega))
    have htk : (buf.take k).length = k := by simp only [List.length_take]; omega
    rw [htk] at hj2 ⊢
    simp only [notification_feed]
    rw [step_frag0 buf v k h1 h2 hk]
    rw [if_neg (by omega)]
    have := feed_fragGo_erase buf v h2 (buf.length - 1) k 1 j2 (by omega) (by omega)
      (by omega) (by omega) (by omega) hj2
    simpa using this

/-- Removing a fragment other than the last one of a buffer's fragment
list makes the reassembler end in the reset (clean) state with no
message. -/
theorem feed_build_fragments_erase_reset (buf : List Nat) (v : Nat) (h1 : 1 ≤ buf.length)
    (h2 : buf.length ≤ 65535) :
    ∀ j, j + 1 < (build_fragments buf v).length →
      notification_feed clean_state ((build_fragments buf v).eraseIdx j) =
        (clean_state, []) := by
  intro j hj
  rw [build_fragments_cons buf v h1] at hj ⊢
  have hplen : (pack_int buf.length).length ≤ 3 :=
    pack_int_length_le 2 _ (by norm_num at h2 ⊢; omega)
  have hhdrlen : (pack_int 0 ++ (pack_int buf.length ++ [v * 16])).length =
      1 + (pack_int buf.length).length + 1 := by
    simp [show pack_int 0 = [0] from rfl]
    omega
  set k := 20 - (pack_int 0 ++ (pack_int buf.length ++ [v * 16])).length with hk
  have hk15 : 15 ≤ k := by omega
  cases j with
  | zero =>
    rw [List.eraseIdx_cons_zero]
    have hne : fragGo buf v (buf.length - 1) ((buf.take k).length) 1 ≠ [] := by
      intro hnil
      rw [hnil] at hj
      simp at hj
    apply feed_drop_of_heads_state _ _ hne
    intro fr hfr
    rcases fragGo_head_unpack buf v (buf.length - 1) ((buf.take k).length) 1 (by omega)
        (by norm_num; omega) fr hfr with ⟨m, p, hm, hp⟩
    exact ⟨m, p, by simp [clean_state]; omega, hp⟩
  | succ j2 =>
    rw [List.eraseIdx_cons_succ]
    have hj2 : j2 + 1 < (fragGo buf v (buf.length - 1) ((buf.take k).length) 1).length := by
      simp only [List.length_cons] at hj
      omega
    have hrest : fragGo buf v (buf.length - 1) ((buf.take k).length) 1 ≠ [] := by
      intro hnil
      rw [hnil] at hj2
      simp at hj2
    have hkL : k < buf.length := by
      by_contra hge
      exact hrest (fragGo_nil_of_le _ _ _ _ _ (by simp only [List.length_take]; omega))
    have htk : (buf.take k).length = k := by simp only [List.length_take]; omega
    rw [htk] at hj2 ⊢
    simp only [notification_feed]
    rw [step_frag0 buf v k h1 h2 hk]
    rw [if_neg (by omega)]
    have := feed_fragGo_erase_reset buf v h2 (buf.length - 1) k 1 j2 (by omega) (by omega)
      (by omega) (by omega) (by omega) hj2
    simpa using this

/-- C2, counterexample.  The claim as stated — any single missing
fragment causes reassembly to reset and yield no message — fails when
the missing fragment is the last one: feeding only the first two
fragments of the 45-byte Scenario F buffer leaves the partial 36-byte
buffer in the reassembler, still awaiting packet 2.  No reset happens;
the final state is not the clean one (no message is yielded either
way). -/
theorem c2_counterexample :
    notification_feed clean_state ((build_fragments (List.range 45) 2).eraseIdx 2) =
      (⟨some ((List.range 45).take 36), 2, 45⟩, []) ∧
    (⟨some ((List.range 45).take 36), 2, 45⟩ : RxState) ≠ clean_state := by
  constructor
  · decide
  · decide

/-- C2, amended.  Fragmentation round trip, for every non-empty buffer
of at most 65535 bytes: feeding the fragments the fragmenter produces,
in order, to the reassembler reconstructs exactly the original buffer,
completing on the last fragment with the state reset; removing any
single fragment makes reassembly yield no message; and removing a
fragment other than the last one moreover resets the reassembly state.
(Removing the last fragment leaves the partial buffer in the
reassembler with no reset — see the counterexample.) -/
theorem c2_fragment_round_trip (buf : List Nat) (v : Nat) (h1 : 1 ≤ buf.length)
    (h2 : buf.length ≤ 65535) (hv : v < 16) :
    notification_feed clean_state (build_fragments buf v) = (clean_state, [buf]) ∧
    (∀ j, j < (build_fragments buf v).length →
      (notification_feed clean_state ((build_fragments buf v).eraseIdx j)).2 = []) ∧
    (∀ j, j + 1 < (build_fragments buf v).length →
      notification_feed clean_state ((build_fragments buf v).eraseIdx j) =
        (clean_state, [])) :=
  ⟨feed_build_fragments buf v h1 h2, feed_build_fragments_erase buf v h1 h2,
    feed_build_fragments_erase_reset buf v h1 h2⟩

/-- Witness for `c2_fragment_round_trip`: the 45-byte buffer of
Scenario F at MTU 20 fragments as `[0x00][0x2D][0x20]` plus 17 payload
bytes, `[0x01]` plus 19, `[0x02]` plus 9; feeding all three completes,
dropping the middle one yields nothing and resets the state. -/
theorem c2_fragment_round_trip_witness :
    build_fragments (List.range 45) 2 =
      [[0, 45, 32] ++ (List.range 45).take 17,
        [1] ++ ((List.range 45).drop 17).take 19,
        [2] ++ ((List.range 45).drop 36).take 9] ∧
    notification_feed clean_state (build_fragments (List.range 45) 2) =
      (clean_state, [List.range 45]) ∧
    (notification_feed clean_state ((build_fragments (List.range 45) 2).eraseIdx 1)).2 =
      [] ∧
    notification_feed clean_state ((build_fragments (List.range 45) 2).eraseIdx 1) =
      (clean_state, []) := by
  refine ⟨by decide, ?_, ?_, ?_⟩
  · exact (c2_fragment_round_trip (List.range 45) 2 (by decide) (by decide) (by decide)).1
  · exact (c2_fragment_round_trip (List.range 45) 2 (by decide) (by decide) (by decide)).2.1
      1 (by decide)
  · exact (c2_fragment_round_trip (List.range 45) 2 (by decide) (by decide) (by decide)).2.2
      1 (by decide)

/-- A concrete dispatcher environment: wall clock 1700000000.000 UTC
(`now_ms = 1700000000000`) in a UTC+01:00 zone (`time.timezone`
is `-3600`, seconds west of UTC). -/
def sampleEnv : TimeEnv :=
  ⟨0, 1700000000000, -3600, 0, 0, 0, 0, 0, 0, 0, fun _ => []⟩

/-- A concrete quiescent device state with no datapoints and no pending
futures. -/
def sampleState : HandlerState :=
  ⟨(0, 0), (0, 0), (0, 0), 3, 0, false, [], none, [], true, ⟨[], 0, []⟩, []⟩

/-- C4.  Evaluating the `RECEIVE_SIGN_DP` handler on
`dp_seq = 0x002A, flags = 2, DPs = [1, 0, 1, 9]`: the source parses the
datapoint block from offset 2, so the flags byte `2` is consumed again
as the first datapoint id (with type `DT_BOOL` from the following
byte), and no datapoint with id 1 is created; parsing from offset 3 —
as the claim specifies — would create datapoint 1 of type `DT_RAW`
instead.  The ack body `(dp_seq, flags, 0)` and its `response_to` are
as claimed. -/
theorem c4_sign_dp_parse_offset :
    (dps_get (handle_command_or_response sampleEnv sampleState 7 0
        TuyaBLECode.FUN_RECEIVE_SIGN_DP [0, 42, 2, 1, 0, 1, 9]).state.datapoints 2).map
        DataPoint.type = some TuyaBLEDataPointType.DT_BOOL ∧
    dps_get (handle_command_or_response sampleEnv sampleState 7 0
        TuyaBLECode.FUN_RECEIVE_SIGN_DP [0, 42, 2, 1, 0, 1, 9]).state.datapoints 1 =
      none ∧
    (handle_command_or_response sampleEnv sampleState 7 0
        TuyaBLECode.FUN_RECEIVE_SIGN_DP [0, 42, 2, 1, 0, 1, 9]).sends =
      [(TuyaBLECode.FUN_RECEIVE_SIGN_DP, [0, 42, 2, 0], 7)] ∧
    (dps_get (parse_datapoints_v3 sampleState.datapoints sampleEnv.now_sec 2
        [0, 42, 2, 1, 0, 1, 9] 3).1 1).map DataPoint.type =
      some TuyaBLEDataPointType.DT_RAW ∧
    dps_get (parse_datapoints_v3 sampleState.datapoints sampleEnv.now_sec 2
        [0, 42, 2, 1, 0, 1, 9] 3).1 2 = none := by
  refine ⟨by decide, by decide, by decide, by decide, by decide⟩

/-- C9, counterexample.  At wall time 1700000000.000 UTC in a UTC+01:00
zone the time1 reply body is the ASCII milliseconds followed by
big-endian `i16(+100)` — `-int(time.timezone / 36)` with
`time.timezone = -3600` is `+100` — not the `i16(-100)` the claim
specifies. -/
theorem c9_counterexample :
    (handle_command_or_response sampleEnv sampleState 7 0
        TuyaBLECode.FUN_RECEIVE_TIME1_REQ []).sends =
      [(TuyaBLECode.FUN_RECEIVE_TIME1_REQ,
        [49, 55, 48, 48, 48, 48, 48, 48, 48, 48, 48, 48, 48] ++ [0, 100], 7)] ∧
    ([49, 55, 48, 48, 48, 48, 48, 48, 48, 48, 48, 48, 48] ++ [0, 100] : List Nat) ≠
      [49, 55, 48, 48, 48, 48, 48, 48, 48, 48, 48, 48, 48] ++ packI16 (-100) := by
  constructor
  · decide
  · decide

/-- C9, amended.  The time1 auto-reply body is the ASCII decimal
milliseconds-since-epoch followed by the big-endian signed 16-bit value
`-(time.timezone / 36)` — the local offset east of UTC in hundredths of
hours (`+100` for UTC+01:00, not `-100`) — and the reply's
`response_to` is the request's `seq_num`, with the device state left
unchanged. -/
theorem c9_time1_reply (env : TimeEnv) (st : HandlerState) (sn : Nat)
    (hlo : -32768 ≤ -(Int.tdiv env.timezone 36))
    (hhi : -(Int.tdiv env.timezone 36) ≤ 32767) :
    handle_command_or_response env st sn 0 TuyaBLECode.FUN_RECEIVE_TIME1_REQ [] =
      ⟨st, [(TuyaBLECode.FUN_RECEIVE_TIME1_REQ,
        asciiDecimal env.now_ms ++ packI16 (-(Int.tdiv env.timezone 36)), sn)],
        [], [], none⟩ ∧
    (env.now_ms = 1700000000000 → env.timezone = -3600 →
      asciiDecimal env.now_ms ++ packI16 (-(Int.tdiv env.timezone 36)) =
        [49, 55, 48, 48, 48, 48, 48, 48, 48, 48, 48, 48, 48] ++ [0, 100]) := by
  constructor
  · simp only [handle_command_or_response]
    rw [if_neg (show ¬ (-(Int.tdiv env.timezone 36) < -32768 ∨
      32767 < -(Int.tdiv env.timezone 36)) from by omega)]
    simp [resolveTail]
  · intro h1 h2
    rw [h1, h2]
    decide

/-- Witness for `c9_time1_reply` at the concrete environment. -/
theorem c9_time1_reply_witness :
    handle_command_or_response sampleEnv sampleState 9 0
        TuyaBLECode.FUN_RECEIVE_TIME1_REQ [] =
      ⟨sampleState, [(TuyaBLECode.FUN_RECEIVE_TIME1_REQ,
        asciiDecimal sampleEnv.now_ms ++ packI16 (-(Int.tdiv sampleEnv.timezone 36)), 9)],
        [], [], none⟩ ∧
    asciiDecimal sampleEnv.now_ms ++ packI16 (-(Int.tdiv sampleEnv.timezone 36)) =
      [49, 55, 48, 48, 48, 48, 48, 48, 48, 48, 48, 48, 48] ++ [0, 100] :=
  ⟨(c9_time1_reply sampleEnv sampleState 9 (by decide) (by decide)).1,
    (c9_time1_reply sampleEnv sampleState 9 (by decide) (by decide)).2 rfl rfl⟩

end PyTuyaBLE
